import Mathlib

/-!
# Verification of the go-algorand catchpoint tracker

Shallow embedding of `ledger/catchpointtracker.go` (the catchpoint tracker of
go-algorand). Machine integers (`uint64`, `basics.Round`, `int64`) are
modelled as `Nat` / `Int` with explicit two's-complement wrapping where the Go
code performs conversions or possibly overflowing arithmetic. Fallible Go code is
modelled with `Option GoErr` result components; external collaborators
(database, filesystem, merkle trie, hash builders, label maker, msgpack
encoder) are modelled as explicit state fields, oracle parameters or abstract
function parameters, as documented on each definition.
-/

namespace Catchpoint

set_option maxRecDepth 100000

/-! ## Go machine arithmetic -/

/-- Two's-complement wrap of an integer into the `int64` range
`[-2^63, 2^63)`. Go's `int64` arithmetic and the `int64(x)` conversion of a
`uint64` value both follow this semantics. -/
def wrapInt64 (x : Int) : Int := (x + 2 ^ 63) % 2 ^ 64 - 2 ^ 63

/-- Go `int64` addition (wraps on overflow). -/
def goAdd64 (a b : Int) : Int := wrapInt64 (a + b)

/-- Go `int64` subtraction (wraps on overflow). -/
def goSub64 (a b : Int) : Int := wrapInt64 (a - b)

/-- Go `int64` multiplication (wraps on overflow). -/
def goMul64 (a b : Int) : Int := wrapInt64 (a * b)

/-- Go `int64` division: quotient truncated toward zero; the only overflowing
case (`MinInt64 / -1`) wraps. Division by zero panics in Go; the Lean model
returns `0` there (all theorems below assume a non-zero divisor). -/
def goDiv64 (a b : Int) : Int := wrapInt64 (a.tdiv b)

/-- Go `uint64(x)` conversion of an `int64` value: the value modulo `2^64`. -/
def goUint64OfInt64 (a : Int) : Nat := (a % 2 ^ 64).toNat

/-! ## The stage-1 scheduler: `calculateFirstStageRounds`

Source: `calculateFirstStageRounds(oldBase, offset, reenableCatchpointsRound,
catchpointInterval, catchpointLookback)`. All five inputs are `uint64`
(`basics.Round` is a `uint64`); the body converts to `int64` for the
ceiling/floor computations. The model takes the inputs as `Nat` (the
mathematical value of the `uint64`) and performs the body's `int64`
arithmetic with exact Go wrap semantics. -/

/-- Embedding of `calculateFirstStageRounds` from the source. Returns
`(hasIntermediateFirstStageRound, hasMultipleIntermediateFirstStageRounds,
newOffset)`.

The Go statement `newOffset = uint64(last) - uint64(oldBase)` is wrapping
`uint64` subtraction of the two converted values. -/
def calculateFirstStageRounds (oldBase offset reenableCatchpointsRound
    catchpointInterval catchpointLookback : Nat) : Bool × Bool × Nat :=
  if reenableCatchpointsRound = 0 then
    (false, false, offset)
  else
    -- minFirstStageRound computation over uint64 (no wrap: guarded subtraction)
    let minFirstStageRound : Nat :=
      if reenableCatchpointsRound > catchpointLookback ∧
          reenableCatchpointsRound - catchpointLookback > oldBase + 1 then
        reenableCatchpointsRound - catchpointLookback
      else oldBase + 1
    -- first := (int64(min)+int64(lookback)+int64(interval)-1)/int64(interval)*int64(interval) - int64(lookback)
    let first : Int :=
      goSub64
        (goMul64
          (goDiv64
            (goSub64
              (goAdd64 (goAdd64 (wrapInt64 minFirstStageRound) (wrapInt64 catchpointLookback))
                (wrapInt64 catchpointInterval))
              1)
            (wrapInt64 catchpointInterval))
          (wrapInt64 catchpointInterval))
        (wrapInt64 catchpointLookback)
    -- last := (int64(oldBase)+int64(offset)+int64(lookback))/int64(interval)*int64(interval) - int64(lookback)
    let last : Int :=
      goSub64
        (goMul64
          (goDiv64
            (goAdd64 (goAdd64 (wrapInt64 oldBase) (wrapInt64 offset)) (wrapInt64 catchpointLookback))
            (wrapInt64 catchpointInterval))
          (wrapInt64 catchpointInterval))
        (wrapInt64 catchpointLookback)
    if first ≤ last then
      ((true : Bool), (decide (first < last)),
        (goUint64OfInt64 last + 2 ^ 64 - goUint64OfInt64 (wrapInt64 oldBase)) % 2 ^ 64)
    else
      (false, false, offset)

/-! ## The stage-2 scheduler: `calculateCatchpointRounds` (free function)

Source: `calculateCatchpointRounds(min, max, catchpointInterval)` over
`uint64`. `l := (uint64(min) + catchpointInterval - 1) / catchpointInterval`
uses wrapping `uint64` addition; the loop `for i := l; i <= r; i++` appends
`basics.Round(i * catchpointInterval)` (wrapping multiplication). The loop is
modelled by its trip count `r + 1 - l`; for `r = 2^64 - 1` the Go loop
counter itself would wrap (the loop would not terminate), a corner excluded
by the hypotheses of the theorems below. -/

/-- Embedding of the free function `calculateCatchpointRounds` from the
source. Inputs are the mathematical values of the `uint64` arguments. -/
def calculateCatchpointRounds (min max catchpointInterval : Nat) : List Nat :=
  let l := ((min + catchpointInterval - 1) % 2 ^ 64) / catchpointInterval
  let r := max / catchpointInterval
  if l > r then
    []
  else
    (List.range (r + 1 - l)).map (fun i => ((l + i) * catchpointInterval) % 2 ^ 64)

/-! ## Arithmetic helper lemmas -/

theorem wrapInt64_eq_self {x : Int} (h1 : -2 ^ 63 ≤ x) (h2 : x < 2 ^ 63) :
    wrapInt64 x = x := by
  unfold wrapInt64
  rw [Int.emod_eq_of_lt (by omega) (by omega)]
  omega

theorem wrapInt64_natCast {n : Nat} (h : n < 2 ^ 63) : wrapInt64 (n : Int) = (n : Int) :=
  wrapInt64_eq_self (by omega) (by omega)

theorem natCast_tdiv (m n : Nat) : ((m : Int)).tdiv (n : Int) = ((m / n : Nat) : Int) := rfl

theorem goUint64OfInt64_natCast {n : Nat} (h : n < 2 ^ 64) :
    goUint64OfInt64 (n : Int) = n := by
  unfold goUint64OfInt64
  rw [Int.emod_eq_of_lt (by omega) (by omega)]
  omega

/-- Least multiple of `k` that is `≥ a`, as computed by the ceiling trick. -/
theorem le_ceil_mul {a k : Nat} (hk : 0 < k) : a ≤ (a + k - 1) / k * k := by
  have h := Nat.lt_div_mul_add (a := a + k - 1) (b := k) hk
  omega

/-- The ceiling-trick multiple is a lower bound of every multiple of `k`
that is `≥ a`. -/
theorem ceil_mul_le {a s k : Nat} (hk : 0 < k) (hmod : s % k = 0) (h : a ≤ s) :
    (a + k - 1) / k * k ≤ s := by
  obtain ⟨m, rfl⟩ : ∃ m, s = m * k := ⟨s / k, by rw [Nat.div_mul_cancel (Nat.dvd_of_mod_eq_zero hmod)]⟩
  have h2 : (a + k - 1) / k < m + 1 := by
    rw [Nat.div_lt_iff_lt_mul hk]
    have h3 : (m + 1) * k = m * k + k := by ring
    omega
  exact Nat.mul_le_mul_right k (by omega)

/-- Every multiple of `k` that is `≤ b` is `≤` the floor-trick multiple. -/
theorem mul_le_floor {s b k : Nat} (hk : 0 < k) (hmod : s % k = 0) (h : s ≤ b) :
    s ≤ b / k * k := by
  obtain ⟨m, rfl⟩ : ∃ m, s = m * k := ⟨s / k, by rw [Nat.div_mul_cancel (Nat.dvd_of_mod_eq_zero hmod)]⟩
  have h2 : m ≤ b / k := (Nat.le_div_iff_mul_le hk).mpr h
  exact Nat.mul_le_mul_right k h2

/-! ## C1: characterization of `calculateFirstStageRounds` -/

/-- Spec-side predicate, transcribing the C1 claim: `r` is an intermediate
first-stage round for the commit window, i.e.
`max(oldBase+1, reenableCatchpointsRound - catchpointLookback) ≤ r ≤ oldBase + offset`
and `(r + catchpointLookback) mod catchpointInterval = 0` (`-` is the
truncated natural subtraction, matching the guarded `uint64` subtraction in
the code). -/
def specFirstStageRound (oldBase offset reenableCatchpointsRound
    catchpointInterval catchpointLookback r : Nat) : Prop :=
  max (oldBase + 1) (reenableCatchpointsRound - catchpointLookback) ≤ r ∧
  r ≤ oldBase + offset ∧ (r + catchpointLookback) % catchpointInterval = 0

instance (oldBase offset reenable k lookback r : Nat) :
    Decidable (specFirstStageRound oldBase offset reenable k lookback r) := by
  unfold specFirstStageRound; infer_instance

/-- Clean form of the `first` expression of `calculateFirstStageRounds` when
no `int64` conversion or arithmetic wraps. -/
theorem firstTerm_eq (M lookback k : Nat) (hM : 0 < M)
    (hb : M + lookback + k < 2 ^ 63) :
    goSub64 (goMul64 (goDiv64 (goSub64 (goAdd64 (goAdd64 (wrapInt64 (M : Int))
      (wrapInt64 (lookback : Int))) (wrapInt64 (k : Int))) 1) (wrapInt64 (k : Int)))
        (wrapInt64 (k : Int))) (wrapInt64 (lookback : Int))
      = (((M + lookback + k - 1) / k * k : Nat) : Int) - (lookback : Int) := by
  have wM : wrapInt64 (M : Int) = (M : Int) := wrapInt64_natCast (by omega)
  have wl : wrapInt64 (lookback : Int) = (lookback : Int) := wrapInt64_natCast (by omega)
  have wk : wrapInt64 (k : Int) = (k : Int) := wrapInt64_natCast (by omega)
  rw [wM, wl, wk]
  unfold goAdd64 goSub64 goMul64 goDiv64
  rw [show (M : Int) + (lookback : Int) = ((M + lookback : Nat) : Int) by push_cast; ring,
    wrapInt64_natCast (by omega),
    show ((M + lookback : Nat) : Int) + (k : Int) = ((M + lookback + k : Nat) : Int) by push_cast; ring,
    wrapInt64_natCast (by omega),
    show ((M + lookback + k : Nat) : Int) - 1 = ((M + lookback + k - 1 : Nat) : Int) by push_cast [Nat.succ_le_of_lt hM]; omega,
    wrapInt64_natCast (by omega),
    natCast_tdiv,
    wrapInt64_natCast (by have := Nat.div_le_self (M + lookback + k - 1) k; omega),
    show (((M + lookback + k - 1) / k : Nat) : Int) * (k : Int) = (((M + lookback + k - 1) / k * k : Nat) : Int) by push_cast; ring,
    wrapInt64_natCast (by have := Nat.div_mul_le_self (M + lookback + k - 1) k; omega),
    wrapInt64_eq_self (x := (((M + lookback + k - 1) / k * k : Nat) : Int) - (lookback : Int))
      (by have := Nat.div_mul_le_self (M + lookback + k - 1) k; omega)
      (by have := Nat.div_mul_le_self (M + lookback + k - 1) k; omega)]

/-- Clean form of the `last` expression of `calculateFirstStageRounds` when
no `int64` conversion or arithmetic wraps. -/
theorem lastTerm_eq (oldBase offset lookback k : Nat)
    (hb : oldBase + offset + lookback < 2 ^ 63) (hkb : k < 2 ^ 63) :
    goSub64 (goMul64 (goDiv64 (goAdd64 (goAdd64 (wrapInt64 (oldBase : Int))
      (wrapInt64 (offset : Int))) (wrapInt64 (lookback : Int))) (wrapInt64 (k : Int)))
        (wrapInt64 (k : Int))) (wrapInt64 (lookback : Int))
      = ((((oldBase + offset + lookback) / k * k : Nat)) : Int) - (lookback : Int) := by
  have wo : wrapInt64 (oldBase : Int) = (oldBase : Int) := wrapInt64_natCast (by omega)
  have wf : wrapInt64 (offset : Int) = (offset : Int) := wrapInt64_natCast (by omega)
  have wl : wrapInt64 (lookback : Int) = (lookback : Int) := wrapInt64_natCast (by omega)
  have wk : wrapInt64 (k : Int) = (k : Int) := wrapInt64_natCast (by omega)
  rw [wo, wf, wl, wk]
  unfold goAdd64 goSub64 goMul64 goDiv64
  rw [show (oldBase : Int) + (offset : Int) = ((oldBase + offset : Nat) : Int) by push_cast; ring,
    wrapInt64_natCast (by omega),
    show ((oldBase + offset : Nat) : Int) + (lookback : Int) = ((oldBase + offset + lookback : Nat) : Int) by push_cast; ring,
    wrapInt64_natCast (by omega),
    natCast_tdiv,
    wrapInt64_natCast (by have := Nat.div_le_self (oldBase + offset + lookback) k; omega),
    show (((oldBase + offset + lookback) / k : Nat) : Int) * (k : Int) = (((oldBase + offset + lookback) / k * k : Nat) : Int) by push_cast; ring,
    wrapInt64_natCast (by have := Nat.div_mul_le_self (oldBase + offset + lookback) k; omega),
    wrapInt64_eq_self (x := (((oldBase + offset + lookback) / k * k : Nat) : Int) - (lookback : Int))
      (by have := Nat.div_mul_le_self (oldBase + offset + lookback) k; omega)
      (by have := Nat.div_mul_le_self (oldBase + offset + lookback) k; omega)]

/-- Clean (pure `Nat`) form of `calculateFirstStageRounds` when the
reenable round is non-zero and no `int64` overflow occurs. -/
theorem calculateFirstStageRounds_clean (oldBase offset reenable k lookback : Nat)
    (hk : 0 < k) (hre : reenable ≠ 0)
    (hA : oldBase + offset + lookback + k < 2 ^ 62)
    (hB : reenable + k < 2 ^ 62) :
    calculateFirstStageRounds oldBase offset reenable k lookback =
      (if (max (oldBase + 1) (reenable - lookback) + lookback + k - 1) / k * k ≤
          (oldBase + offset + lookback) / k * k then
        ((true : Bool),
          decide ((max (oldBase + 1) (reenable - lookback) + lookback + k - 1) / k * k <
            (oldBase + offset + lookback) / k * k),
          (oldBase + offset + lookback) / k * k - lookback - oldBase)
      else ((false : Bool), (false : Bool), offset)) := by
  rw [calculateFirstStageRounds]
  rw [if_neg hre]
  have hmin : (if reenable > lookback ∧ reenable - lookback > oldBase + 1 then
      reenable - lookback else oldBase + 1) = max (oldBase + 1) (reenable - lookback) := by
    split <;> omega
  simp only [hmin]
  rw [firstTerm_eq (max (oldBase + 1) (reenable - lookback)) lookback k (by omega) (by omega),
    lastTerm_eq oldBase offset lookback k (by omega) (by omega)]
  have hF := Nat.div_mul_le_self (max (oldBase + 1) (reenable - lookback) + lookback + k - 1) k
  have hL := Nat.div_mul_le_self (oldBase + offset + lookback) k
  have hFge := le_ceil_mul (a := max (oldBase + 1) (reenable - lookback) + lookback) hk
  have hiff : ∀ x y : Nat,
      ((x : Int) - (lookback : Int) ≤ (y : Int) - (lookback : Int)) ↔ x ≤ y := fun x y => by
    rw [sub_le_sub_iff_right, Nat.cast_le]
  have hiff2 : ∀ x y : Nat,
      ((x : Int) - (lookback : Int) < (y : Int) - (lookback : Int)) ↔ x < y := fun x y => by
    rw [sub_lt_sub_iff_right, Nat.cast_lt]
  by_cases hle : (max (oldBase + 1) (reenable - lookback) + lookback + k - 1) / k * k ≤
      (oldBase + offset + lookback) / k * k
  · rw [if_pos ((hiff _ _).mpr hle), if_pos hle]
    simp only [Prod.mk.injEq]
    refine ⟨trivial, ?_, ?_⟩
    · rw [decide_eq_decide]
      exact hiff2 _ _
    · rw [wrapInt64_natCast (n := oldBase) (by omega), goUint64OfInt64_natCast (by omega)]
      rw [show (((oldBase + offset + lookback) / k * k : Nat) : Int) - (lookback : Int) =
        (((oldBase + offset + lookback) / k * k - lookback : Nat) : Int) by omega]
      rw [goUint64OfInt64_natCast (by omega)]
      omega
  · rw [if_neg (fun hc => hle ((hiff _ _).mp hc)), if_neg hle]

/-- C1 (amended): provided `catchpointInterval > 0`,
`reenableCatchpointsRound ≠ 0`, and the inputs are small enough that none of
the `int64` computations overflows, `calculateFirstStageRounds` reports an
intermediate first-stage round iff a round `r` with
`max(oldBase+1, reenable - lookback) ≤ r ≤ oldBase + offset` and
`(r + lookback) mod interval = 0` exists; in that case `oldBase + newOffset`
is the largest such round, and the multiple-rounds flag is set iff at least
two such rounds exist. -/
theorem calculateFirstStageRounds_characterization
    (oldBase offset reenable k lookback : Nat)
    (hk : 0 < k) (hre : reenable ≠ 0)
    (hA : oldBase + offset + lookback + k < 2 ^ 62)
    (hB : reenable + k < 2 ^ 62) :
    ((calculateFirstStageRounds oldBase offset reenable k lookback).1 = true ↔
      ∃ r, specFirstStageRound oldBase offset reenable k lookback r) ∧
    ((calculateFirstStageRounds oldBase offset reenable k lookback).1 = true →
      specFirstStageRound oldBase offset reenable k lookback
        (oldBase + (calculateFirstStageRounds oldBase offset reenable k lookback).2.2) ∧
      ∀ r, specFirstStageRound oldBase offset reenable k lookback r →
        r ≤ oldBase + (calculateFirstStageRounds oldBase offset reenable k lookback).2.2) ∧
    ((calculateFirstStageRounds oldBase offset reenable k lookback).2.1 = true ↔
      ∃ r s, specFirstStageRound oldBase offset reenable k lookback r ∧
        specFirstStageRound oldBase offset reenable k lookback s ∧ r ≠ s) := by
  rw [calculateFirstStageRounds_clean oldBase offset reenable k lookback hk hre hA hB]
  have hFmod : ((max (oldBase + 1) (reenable - lookback) + lookback + k - 1) / k * k) % k = 0 :=
    Nat.mul_mod_left _ _
  have hLmod : ((oldBase + offset + lookback) / k * k) % k = 0 := Nat.mul_mod_left _ _
  have hFge := le_ceil_mul (a := max (oldBase + 1) (reenable - lookback) + lookback) hk
  have hLle := Nat.div_mul_le_self (oldBase + offset + lookback) k
  have hqual : ∀ r, specFirstStageRound oldBase offset reenable k lookback r →
      (max (oldBase + 1) (reenable - lookback) + lookback + k - 1) / k * k ≤ r + lookback ∧
      r + lookback ≤ (oldBase + offset + lookback) / k * k := by
    intro r ⟨h1, h2, h3⟩
    exact ⟨ceil_mul_le hk h3 (by omega), mul_le_floor hk h3 (by omega)⟩
  by_cases hle : (max (oldBase + 1) (reenable - lookback) + lookback + k - 1) / k * k ≤
      (oldBase + offset + lookback) / k * k
  · rw [if_pos hle]
    dsimp only
    have hqL : specFirstStageRound oldBase offset reenable k lookback
        ((oldBase + offset + lookback) / k * k - lookback) := by
      refine ⟨by omega, by omega, ?_⟩
      rw [show (oldBase + offset + lookback) / k * k - lookback + lookback =
        (oldBase + offset + lookback) / k * k by omega]
      exact hLmod
    refine ⟨⟨fun _ => ⟨_, hqL⟩, fun _ => rfl⟩, ?_, ?_⟩
    · intro _
      constructor
      · show specFirstStageRound _ _ _ _ _ (oldBase + ((oldBase + offset + lookback) / k * k - lookback - oldBase))
        rw [show oldBase + ((oldBase + offset + lookback) / k * k - lookback - oldBase) =
          (oldBase + offset + lookback) / k * k - lookback by omega]
        exact hqL
      · intro r hr
        have := hqual r hr
        omega
    · constructor
      · intro h
        have hlt : (max (oldBase + 1) (reenable - lookback) + lookback + k - 1) / k * k <
            (oldBase + offset + lookback) / k * k := by
          simpa using h
        refine ⟨(max (oldBase + 1) (reenable - lookback) + lookback + k - 1) / k * k - lookback,
          (oldBase + offset + lookback) / k * k - lookback, ?_, hqL, by omega⟩
        refine ⟨by omega, by omega, ?_⟩
        rw [show (max (oldBase + 1) (reenable - lookback) + lookback + k - 1) / k * k - lookback + lookback =
          (max (oldBase + 1) (reenable - lookback) + lookback + k - 1) / k * k by omega]
        exact hFmod
      · rintro ⟨r, s, hr, hs, hne⟩
        have h1 := hqual r hr
        have h2 := hqual s hs
        simp only [decide_eq_true_eq]
        rcases Nat.lt_trichotomy r s with h | h | h
        · omega
        · exact absurd h hne
        · omega
  · rw [if_neg hle]
    dsimp only
    have hnone : ∀ r, ¬ specFirstStageRound oldBase offset reenable k lookback r := by
      intro r hr
      have := hqual r hr
      omega
    refine ⟨⟨fun h => by simp at h, fun ⟨r, hr⟩ => absurd hr (hnone r)⟩,
      fun h => by simp at h, ⟨fun h => by simp at h, fun ⟨r, s, hr, _, _⟩ => absurd hr (hnone r)⟩⟩

/-- C1 counterexample: at `oldBase = 0`, `offset = 10`,
`reenableCatchpointsRound = 0`, `catchpointInterval = 10`,
`catchpointLookback = 0`, round 10 satisfies the claim's window condition,
yet the function reports that no intermediate first-stage round exists (the
code returns early whenever the reenable round is zero), refuting the claim
as stated for every `reenableCatchpointsRound`. -/
theorem calculateFirstStageRounds_reenableZero_cex :
    specFirstStageRound 0 10 0 10 0 10 ∧
    (calculateFirstStageRounds 0 10 0 10 0).1 = false := by
  constructor
  · decide
  · rfl

/-- C1 witness: the characterization applied at the spec's concrete example
(`oldBase = 0`, `offset = 500`, `reenable = 200`, `interval = 100`,
`lookback = 320`), together with the evaluated result: the flags are set and
the new offset is 480. -/
theorem calculateFirstStageRounds_characterization_witness :
    calculateFirstStageRounds 0 500 200 100 320 = (true, true, 480) ∧
    specFirstStageRound 0 500 200 100 320
      (0 + (calculateFirstStageRounds 0 500 200 100 320).2.2) := by
  refine ⟨by decide, ?_⟩
  exact ((calculateFirstStageRounds_characterization 0 500 200 100 320 (by decide) (by decide)
    (by decide) (by decide)).2.1 (by decide)).1

/-! ## C2: characterization of the free `calculateCatchpointRounds` -/

/-- C2 (amended): provided `catchpointInterval > 0` and the `uint64`
computations do not overflow (`min + catchpointInterval ≤ 2^64`,
`max < 2^64`, and the loop's upper index `max / catchpointInterval` is below
`2^64 - 1`), `calculateCatchpointRounds` returns exactly the multiples of
`catchpointInterval` in `[min, max]`, in (strictly) increasing order, and
the empty list when no such multiple exists. -/
theorem calculateCatchpointRounds_characterization (min max k : Nat) (hk : 0 < k)
    (hov : min + k ≤ 2 ^ 64) (hmax : max < 2 ^ 64) (hidx : max / k < 2 ^ 64 - 1) :
    (∀ x, x ∈ calculateCatchpointRounds min max k ↔ min ≤ x ∧ x ≤ max ∧ x % k = 0) ∧
    (calculateCatchpointRounds min max k).Pairwise (· < ·) ∧
    ((∀ x, ¬(min ≤ x ∧ x ≤ max ∧ x % k = 0)) → calculateCatchpointRounds min max k = []) := by
  have hl : (min + k - 1) % 2 ^ 64 = min + k - 1 := Nat.mod_eq_of_lt (by omega)
  have hrk := Nat.div_mul_le_self max k
  have hlow : ∀ x, min ≤ x → x % k = 0 → (min + k - 1) / k ≤ x / k := by
    intro x h1 h2
    have h3 : (min + k - 1) / k * k ≤ x := ceil_mul_le hk h2 h1
    have h4 : x / k * k = x := Nat.div_mul_cancel (Nat.dvd_of_mod_eq_zero h2)
    exact Nat.le_of_mul_le_mul_right (by omega) hk
  have hcong : (List.range (max / k + 1 - (min + k - 1) / k)).map
      (fun i => (((min + k - 1) / k + i) * k) % 2 ^ 64) =
      (List.range (max / k + 1 - (min + k - 1) / k)).map
      (fun i => ((min + k - 1) / k + i) * k) := by
    refine List.map_congr_left ?_
    intro i hi
    rw [List.mem_range] at hi
    refine Nat.mod_eq_of_lt ?_
    have h6 : ((min + k - 1) / k + i) * k ≤ max / k * k :=
      Nat.mul_le_mul_right k (by omega)
    omega
  have hmem : ∀ x, x ∈ calculateCatchpointRounds min max k ↔
      min ≤ x ∧ x ≤ max ∧ x % k = 0 := by
    intro x
    simp only [calculateCatchpointRounds, hl]
    by_cases hcmp : (min + k - 1) / k > max / k
    · rw [if_pos hcmp]
      simp only [List.not_mem_nil, false_iff]
      rintro ⟨h1, h2, h3⟩
      have h4 := hlow x h1 h3
      have h5 := Nat.div_le_div_right (c := k) h2
      omega
    · rw [if_neg hcmp]
      rw [hcong]
      simp only [List.mem_map, List.mem_range]
      constructor
      · rintro ⟨i, hi, rfl⟩
        have h6 : min ≤ (min + k - 1) / k * k := le_ceil_mul hk
        have h7 : (min + k - 1) / k * k ≤ ((min + k - 1) / k + i) * k :=
          Nat.mul_le_mul_right k (by omega)
        have h8 : ((min + k - 1) / k + i) * k ≤ max / k * k :=
          Nat.mul_le_mul_right k (by omega)
        exact ⟨by omega, by omega, Nat.mul_mod_left _ _⟩
      · rintro ⟨h1, h2, h3⟩
        refine ⟨x / k - (min + k - 1) / k, ?_, ?_⟩
        · have h4 := hlow x h1 h3
          have h5 := Nat.div_le_div_right (c := k) h2
          omega
        · have h4 := hlow x h1 h3
          have h5 : x / k * k = x := Nat.div_mul_cancel (Nat.dvd_of_mod_eq_zero h3)
          rw [show (min + k - 1) / k + (x / k - (min + k - 1) / k) = x / k by omega]
          exact h5
  refine ⟨hmem, ?_, ?_⟩
  · simp only [calculateCatchpointRounds, hl]
    by_cases hcmp : (min + k - 1) / k > max / k
    · rw [if_pos hcmp]
      exact List.Pairwise.nil
    · rw [if_neg hcmp, hcong]
      refine List.Pairwise.map _ ?_ (List.pairwise_lt_range _)
      intro a b hab
      exact (Nat.mul_lt_mul_right hk).mpr (by omega)
  · intro hnone
    refine List.eq_nil_iff_forall_not_mem.mpr ?_
    intro x hx
    exact hnone x ((hmem x).mp hx)

/-- C2 counterexample: with `min = max = 2^64 - 1` (a valid `uint64` value)
and `catchpointInterval = 2`, the `uint64` computation
`min + catchpointInterval - 1` wraps to zero, so the function returns a list
of `2^63` rounds (starting far below `min`) even though no multiple of 2
lies in `[min, max]` — the claim demands the empty list here. -/
theorem calculateCatchpointRounds_overflow_cex :
    calculateCatchpointRounds (2 ^ 64 - 1) (2 ^ 64 - 1) 2 ≠ [] ∧
    ∀ x, 2 ^ 64 - 1 ≤ x → x ≤ 2 ^ 64 - 1 → x % 2 ≠ 0 := by
  constructor
  · have hlen : (calculateCatchpointRounds (2 ^ 64 - 1) (2 ^ 64 - 1) 2).length = 2 ^ 63 := by
      simp only [calculateCatchpointRounds]
      rw [if_neg (by norm_num), List.length_map, List.length_range]
      norm_num
    intro h
    rw [h] at hlen
    simp at hlen
  · intro x h1 h2
    omega

/-- C2 witness: the characterization applied to the spec's concrete
examples, together with the evaluated boundary results
`calculateCatchpointRounds 11 19 10 = []` and
`calculateCatchpointRounds 10 30 10 = [10, 20, 30]`. -/
theorem calculateCatchpointRounds_characterization_witness :
    calculateCatchpointRounds 11 19 10 = [] ∧
    calculateCatchpointRounds 10 30 10 = [10, 20, 30] ∧
    (20 ∈ calculateCatchpointRounds 10 30 10 ↔ 10 ≤ 20 ∧ 20 ≤ 30 ∧ 20 % 10 = 0) := by
  refine ⟨by decide, by decide, ?_⟩
  exact (calculateCatchpointRounds_characterization 10 30 10 (by decide) (by decide)
    (by decide) (by decide)).1 20

/-! ## Data model for the stateful operations

The tracker's database (`trackerdb` catchpoint tables and key/value slots),
the hot and cold directories of the filesystem, and the in-memory tracker
fields are modelled as one explicit state record. Database rows are
association lists keyed by round; disk directories are lists of (relative)
paths. Digests (`crypto.Digest`) are opaque and modelled as `Nat`; account
totals (`ledgercore.AccountTotals`) likewise. Labels
(`ledgercore.MakeLabel` is outside the sources) are modelled by the label
maker's inputs, which by the spec determine the label string purely. -/

/-- Error values surfaced by the modelled operations. Go errors carry
strings; only their identity matters here. -/
inductive GoErr where
  | invalidV8Params
  | repackFailed
  | spDataFailed
  | onlineHashFailed
  | genDataFailed
  | totalsFailed
  | trieRootFailed
  | shortBuffer
  | unexpectedEOF
  | sizeMismatch
  | noEntry
deriving DecidableEq, Repr

/-- The `trackerdb.CatchpointFirstStageInfo` record. -/
structure CatchpointFirstStageInfo where
  totals : Nat
  totalAccounts : Nat
  totalKVs : Nat
  totalOnlineAccounts : Nat
  totalOnlineRoundParams : Nat
  totalChunks : Nat
  biggestChunkLen : Nat
  trieBalancesHash : Nat
  stateProofVerificationHash : Nat
  onlineAccountsHash : Nat
  onlineRoundParamsHash : Nat
deriving DecidableEq, Repr

/-- A catchpoint label, modelled by the inputs of the label maker selected
in `createCatchpoint` (`MakeCatchpointLabelMakerV6` / `...V7` /
`...Current`); by spec invariant 4 the label string is a pure function of
these inputs. -/
inductive CatchpointLabel where
  | v6 (round blockHash trieBalancesHash totals : Nat)
  | v7 (round blockHash trieBalancesHash totals spVerificationHash : Nat)
  | v8 (round blockHash trieBalancesHash totals spVerificationHash
      onlineAccountsHash onlineRoundParamsHash : Nat)
deriving DecidableEq, Repr

/-- The `CatchpointFileHeader` record written as the first chunk of every
archive. -/
structure CatchpointFileHeader where
  version : Nat
  balancesRound : Nat
  blocksRound : Nat
  totals : Nat
  totalAccounts : Nat
  totalKVs : Nat
  totalOnlineAccounts : Nat
  totalOnlineRoundParams : Nat
  totalChunks : Nat
  catchpoint : CatchpointLabel
  blockHeaderDigest : Nat
deriving DecidableEq, Repr

/-- The catchpoint tables and key/value slots of the tracker database. -/
structure CatchpointStore where
  writingFirstStageInfo : Nat
  catchpointLookback : Nat
  lastCatchpoint : Option CatchpointLabel
  firstStageInfos : List (Nat × CatchpointFirstStageInfo)
  unfinished : List (Nat × Nat)
  registry : List (Nat × String × Nat)
deriving DecidableEq, Repr

/-- The catchpoint tracker state: the in-memory `catchpointTracker` fields
relevant to the verified operations, its database (`store`), the hot
directory holding stage-1 data files (`dataFiles`, relative paths) and the
cold directory holding finished archives (`coldFiles`, relative path with
file size). The cold archives' decoded headers are kept in `archives` so
that theorems can speak about the version written into an archive. The
single-slot `catchpointDataSlowWriting` channel is modelled by whether it is
closed. -/
structure CatchpointTracker where
  catchpointInterval : Nat
  catchpointFileHistoryLength : Int
  enableGeneratingCatchpointFiles : Bool
  lastCatchpointLabel : Option CatchpointLabel
  catchpointDataWriting : Int
  slowWritingClosed : Bool
  reenableCatchpointsRound : Nat
  cachedDBRound : Nat
  balancesTrie : List Nat
  store : CatchpointStore
  dataFiles : List String
  coldFiles : List (String × Nat)
  archives : List (Nat × CatchpointFileHeader)
deriving DecidableEq, Repr

/-- Embedding of `catchpointTracker.catchpointEnabled` from the source. -/
def CatchpointTracker.catchpointEnabled (ct : CatchpointTracker) : Bool :=
  ct.catchpointInterval != 0

/-! ### Association-list helpers (database tables keyed by round) -/

def lookupRound {α : Type} : List (Nat × α) → Nat → Option α
  | [], _ => none
  | (r0, v) :: rest, r => if r0 = r then some v else lookupRound rest r

def removeRound {α : Type} : List (Nat × α) → Nat → List (Nat × α)
  | [], _ => []
  | (r0, v) :: rest, r =>
    if r0 = r then removeRound rest r else (r0, v) :: removeRound rest r

def setRound {α : Type} (l : List (Nat × α)) (r : Nat) (v : α) : List (Nat × α) :=
  removeRound l r ++ [(r, v)]

theorem lookupRound_append {α : Type} (l1 l2 : List (Nat × α)) (r : Nat) :
    lookupRound (l1 ++ l2) r =
      match lookupRound l1 r with
      | some v => some v
      | none => lookupRound l2 r := by
  induction l1 with
  | nil => rfl
  | cons e rest ih =>
    by_cases h : e.1 = r
    · simp [lookupRound, h]
    · simpa [lookupRound, h] using ih

theorem lookupRound_removeRound_self {α : Type} (l : List (Nat × α)) (r : Nat) :
    lookupRound (removeRound l r) r = none := by
  induction l with
  | nil => rfl
  | cons e rest ih =>
    obtain ⟨r0, v⟩ := e
    by_cases h : r0 = r
    · simpa [removeRound, h] using ih
    · simpa [removeRound, lookupRound, h] using ih

theorem lookupRound_removeRound_ne {α : Type} (l : List (Nat × α)) (r r' : Nat)
    (h : r' ≠ r) : lookupRound (removeRound l r) r' = lookupRound l r' := by
  induction l with
  | nil => rfl
  | cons e rest ih =>
    obtain ⟨r0, v⟩ := e
    by_cases h1 : r0 = r
    · have h2 : r0 ≠ r' := by omega
      simpa [removeRound, lookupRound, h1, h2, Ne.symm h] using ih
    · by_cases h2 : r0 = r'
      · simp [removeRound, lookupRound, h1, h2, h]
      · simpa [removeRound, lookupRound, h1, h2] using ih

theorem lookupRound_setRound_self {α : Type} (l : List (Nat × α)) (r : Nat) (v : α) :
    lookupRound (setRound l r v) r = some v := by
  rw [setRound, lookupRound_append, lookupRound_removeRound_self]
  simp [lookupRound]

theorem lookupRound_setRound_ne {α : Type} (l : List (Nat × α)) (r r' : Nat) (v : α)
    (h : r' ≠ r) : lookupRound (setRound l r v) r' = lookupRound l r' := by
  rw [setRound, lookupRound_append, lookupRound_removeRound_ne l r r' h]
  cases h2 : lookupRound l r' with
  | some w => rfl
  | none => simp [lookupRound, h, Ne.symm h]

/-! ### Paths and external filesystem helpers -/

/-- The `trackerdb.CatchpointDirName` constant (spec: stage-1 intermediates
live under `catchpoints/<round>.data`, finals under
`catchpoints/<derived-path>`). -/
def CatchpointDirName : String := "catchpoints"

/-- Join of two relative path components (`filepath.Join`). -/
def filepathJoin (a b : String) : String := a ++ "/" ++ b

/-- Embedding of `makeCatchpointDataFilePath` from the source:
`strconv.FormatInt(int64(accountsRound), 10) + ".data"`. -/
def makeCatchpointDataFilePath (accountsRound : Nat) : String :=
  toString accountsRound ++ ".data"

/-- Modelled from the spec: `trackerdb.MakeCatchpointFilePath` (not in the
sources) derives the cold-directory relative path of the archive for a
round (`catchpoints/<derived-path>`); only its determinism in the round is
relied upon. -/
def MakeCatchpointFilePath (round : Nat) : String :=
  toString round ++ ".catchpoint"

/-- Modelled from the spec: `trackerdb.RemoveSingleCatchpointFileFromDisk`
(not in the sources) deletes the file at the given relative path from a
directory; deletion of a missing file is not an error. -/
def removeDataFile (files : List String) (p : String) : List String :=
  files.filter (fun q => q != p)

/-- Add a path to a modelled directory listing (idempotent). -/
def diskAdd (files : List String) (p : String) : List String :=
  p :: files.filter (fun q => q != p)

/-- The relative path `filepath.Join(trackerdb.CatchpointDirName,
makeCatchpointDataFilePath(r))` of the stage-1 data file for a round. -/
def dataFilePathFor (r : Nat) : String :=
  filepathJoin CatchpointDirName (makeCatchpointDataFilePath r)

/-! ## C3: `finishFirstStage` and `finishFirstStageAfterCrash`

`finishFirstStage` calls several external collaborators whose results are
modelled as oracle fields of `Stage1Env`: the consensus parameters of the
block protocol (two feature flags), `getSPVerificationData`,
`calculateVerificationHash` over the two online tables,
`generateCatchpointData`, and the reads performed inside
`recordFirstStageInfo` (`AccountsTotals` and the trie root hash). A `none`
oracle value models the corresponding Go call returning an error. -/

/-- Totals returned by `generateCatchpointData` on success. -/
structure GenResult where
  totalAccounts : Nat
  totalKVs : Nat
  totalOnlineAccounts : Nat
  totalOnlineRoundParams : Nat
  totalChunks : Nat
  biggestChunkLen : Nat
deriving DecidableEq, Repr

/-- Oracles for the external calls made by `finishFirstStage`. -/
structure Stage1Env where
  enableCatchpointsWithSPContexts : Bool
  enableCatchpointsWithOnlineAccounts : Bool
  spVerificationHash : Option Nat
  onlineAccountsHash : Option Nat
  onlineRoundParamsHash : Option Nat
  generateResult : Option GenResult
  accountTotals : Option Nat
  trieRootHash : Option Nat
deriving DecidableEq, Repr

/-- The body of the `ct.dbs.Transaction` at the end of `finishFirstStage`:
`recordFirstStageInfo` (which reads the account totals and the trie root
hash and inserts the `CatchpointFirstStageInfo` row) followed by writing 0
to the `CatchpointStateWritingFirstStageInfo` slot. The transaction is
atomic: on an error in the body the store is unchanged. -/
def finishFirstStageTransaction (env : Stage1Env) (dbRound : Nat) (g : GenResult)
    (spVerificationHash onlineAccountsHash onlineRoundParamsHash : Nat)
    (ct : CatchpointTracker) : CatchpointTracker × Option GoErr :=
  match env.accountTotals with
  | none => (ct, some .totalsFailed)
  | some totals =>
    match env.trieRootHash with
    | none => (ct, some .trieRootFailed)
    | some trieBalancesHash =>
      let info : CatchpointFirstStageInfo :=
        ⟨totals, g.totalAccounts, g.totalKVs, g.totalOnlineAccounts,
          g.totalOnlineRoundParams, g.totalChunks, g.biggestChunkLen,
          trieBalancesHash, spVerificationHash, onlineAccountsHash,
          onlineRoundParamsHash⟩
      ({ ct with store := { ct.store with
          firstStageInfos := setRound ct.store.firstStageInfos dbRound info,
          writingFirstStageInfo := 0 } }, none)

/-- Embedding of `catchpointTracker.finishFirstStage` from the source.
Computes the SP-verification hash (when the SP-contexts feature is on), the
online-accounts and online-round-params hashes (when the online-accounts
feature is on), generates the stage-1 data file when file generation is
enabled (clearing the `catchpointDataWriting` sentinel either way; on
failure the partial file is aborted), and finally records the first-stage
info row and clears the `WritingFirstStageInfo` flag in one store
transaction. -/
def finishFirstStage (env : Stage1Env) (dbRound : Nat) (ct : CatchpointTracker) :
    CatchpointTracker × Option GoErr :=
  match (if env.enableCatchpointsWithSPContexts then env.spVerificationHash else some 0) with
  | none => (ct, some .spDataFailed)
  | some spVerificationHash =>
    match (if env.enableCatchpointsWithOnlineAccounts then
        (match env.onlineAccountsHash, env.onlineRoundParamsHash with
         | some a, some b => some (a, b)
         | _, _ => none)
      else some (0, 0)) with
    | none => (ct, some .onlineHashFailed)
    | some (onlineAccountsHash, onlineRoundParamsHash) =>
      if ct.enableGeneratingCatchpointFiles then
        match env.generateResult with
        | none => ({ ct with catchpointDataWriting := 0 }, some .genDataFailed)
        | some g =>
          let ct :=
            { ct with
              catchpointDataWriting := 0,
              dataFiles := diskAdd ct.dataFiles (dataFilePathFor dbRound) }
          finishFirstStageTransaction env dbRound g
            spVerificationHash onlineAccountsHash onlineRoundParamsHash ct
      else
        finishFirstStageTransaction env dbRound ⟨0, 0, 0, 0, 0, 0⟩
          spVerificationHash onlineAccountsHash onlineRoundParamsHash ct

/-- Embedding of `catchpointTracker.finishFirstStageAfterCrash` from the
source: read the persisted `WritingFirstStageInfo` value; when it is zero do
nothing; otherwise delete the (possibly stale) stage-1 data file for the
current base round and re-run `finishFirstStage`. -/
def finishFirstStageAfterCrash (env : Stage1Env) (dbRound : Nat)
    (ct : CatchpointTracker) : CatchpointTracker × Option GoErr :=
  if ct.store.writingFirstStageInfo = 0 then
    (ct, none)
  else
    finishFirstStage env dbRound
      { ct with dataFiles := removeDataFile ct.dataFiles (dataFilePathFor dbRound) }

/-- C3: a successful `finishFirstStage` ends with the
`CatchpointFirstStageInfo` row for `dbRound` present and the
`WritingFirstStageInfo` flag zero (both written in the final store
transaction); a failed run leaves both store fields untouched; and at boot
`finishFirstStageAfterCrash` does nothing when the persisted flag is zero,
and otherwise performs exactly the stage-1 replay — delete the stale data
file for the base round and re-run `finishFirstStage` (which, on success,
clears the flag). -/
theorem finishFirstStage_crash_recovery (env : Stage1Env) (dbRound : Nat)
    (ct : CatchpointTracker) :
    ((finishFirstStage env dbRound ct).2 = none →
      (∃ info, lookupRound (finishFirstStage env dbRound ct).1.store.firstStageInfos dbRound =
        some info) ∧
      (finishFirstStage env dbRound ct).1.store.writingFirstStageInfo = 0) ∧
    ((finishFirstStage env dbRound ct).2 ≠ none →
      (finishFirstStage env dbRound ct).1.store.firstStageInfos = ct.store.firstStageInfos ∧
      (finishFirstStage env dbRound ct).1.store.writingFirstStageInfo =
        ct.store.writingFirstStageInfo) ∧
    (ct.store.writingFirstStageInfo = 0 →
      finishFirstStageAfterCrash env dbRound ct = (ct, none)) ∧
    (ct.store.writingFirstStageInfo ≠ 0 →
      finishFirstStageAfterCrash env dbRound ct =
        finishFirstStage env dbRound
          { ct with dataFiles := removeDataFile ct.dataFiles (dataFilePathFor dbRound) } ∧
      ((finishFirstStageAfterCrash env dbRound ct).2 = none →
        (finishFirstStageAfterCrash env dbRound ct).1.store.writingFirstStageInfo = 0)) := by
  have hmain : ∀ ct' : CatchpointTracker,
      ((finishFirstStage env dbRound ct').2 = none →
        (∃ info, lookupRound (finishFirstStage env dbRound ct').1.store.firstStageInfos dbRound =
          some info) ∧
        (finishFirstStage env dbRound ct').1.store.writingFirstStageInfo = 0) ∧
      ((finishFirstStage env dbRound ct').2 ≠ none →
        (finishFirstStage env dbRound ct').1.store.firstStageInfos = ct'.store.firstStageInfos ∧
        (finishFirstStage env dbRound ct').1.store.writingFirstStageInfo =
          ct'.store.writingFirstStageInfo) := by
    intro ct'
    unfold finishFirstStage finishFirstStageTransaction
    repeat' split
    all_goals simp_all [lookupRound_setRound_self]
  refine ⟨(hmain ct).1, (hmain ct).2, ?_, ?_⟩
  · intro h
    unfold finishFirstStageAfterCrash
    rw [if_pos h]
  · intro h
    have heq : finishFirstStageAfterCrash env dbRound ct =
        finishFirstStage env dbRound
          { ct with dataFiles := removeDataFile ct.dataFiles (dataFilePathFor dbRound) } := by
      unfold finishFirstStageAfterCrash
      rw [if_neg h]
    refine ⟨heq, ?_⟩
    intro hok
    rw [heq] at hok ⊢
    exact ((hmain _).1 hok).2

/-! ## File versions and stage-2 operations -/

/-- Catchpoint file version constants from the source (Go octal literals). -/
def CatchpointFileVersionV5 : Nat := 0o200

def CatchpointFileVersionV6 : Nat := 0o201

def CatchpointFileVersionV7 : Nat := 0o202

def CatchpointFileVersionV8 : Nat := 0o203

/-- Name of the tar entry holding the catchpoint header. -/
def CatchpointContentFileName : String := "content.msgpack"

/-- Oracles for the external calls made by `createCatchpoint`: the two
consensus feature flags of the block protocol, whether `repackCatchpoint`
succeeds, and the size that `os.Stat` reports for the repacked archive. -/
structure Stage2Env where
  enableCatchpointsWithSPContexts : Bool
  enableCatchpointsWithOnlineAccounts : Bool
  repackOk : Bool
  archiveSize : Nat
deriving DecidableEq, Repr

/-- Modelled from the spec: the `trackerdb` `StoreCatchpoint` operation
records the file for a round in the registry (replacing any previous row);
storing an empty file name removes the row (spec scenario 5: "registry row
removed"). The registry list is kept in insertion order, oldest first. -/
def storeCatchpoint (reg : List (Nat × String × Nat)) (round : Nat)
    (fileName : String) (fileSize : Nat) : List (Nat × String × Nat) :=
  if fileName = "" then removeRound reg round
  else setRound reg round (fileName, fileSize)

/-- Modelled from the spec: `GetOldestCatchpointFiles(want, keep)` returns
up to `want` of the oldest registry rows beyond the `keep` most recent
ones. -/
def getOldestCatchpointFiles (reg : List (Nat × String × Nat)) (want : Nat)
    (keep : Int) : List (Nat × String × Nat) :=
  if (reg.length : Int) ≤ keep then []
  else reg.take (min want (reg.length - keep.toNat))

/-- One iteration of the deletion loop at the end of
`recordCatchpointFile`: remove the old file from disk and erase its registry
row (`StoreCatchpoint` with an empty name). -/
def cleanupOldFile (s : CatchpointTracker) (e : Nat × String × Nat) : CatchpointTracker :=
  { s with
    coldFiles := s.coldFiles.filter (fun f => f.1 != e.2.1),
    store := { s.store with registry := storeCatchpoint s.store.registry e.1 "" 0 } }

/-- Embedding of `catchpointTracker.recordCatchpointFile` from the source:
when the configured history length is non-zero, store the row; otherwise
remove the file from disk instead. Then, unless the history is unlimited
(`-1`), fetch up to two of the oldest rows beyond the history length, delete
their files from disk and erase their rows. The modelled store and disk
operations cannot fail, so the result error is always `none`. -/
def recordCatchpointFile (round : Nat) (relPath : String) (fileSize : Nat)
    (ct : CatchpointTracker) : CatchpointTracker × Option GoErr :=
  let ct :=
    if ct.catchpointFileHistoryLength ≠ 0 then
      { ct with store := { ct.store with
          registry := storeCatchpoint ct.store.registry round relPath fileSize } }
    else
      { ct with coldFiles := ct.coldFiles.filter (fun e => e.1 != relPath) }
  if ct.catchpointFileHistoryLength = -1 then (ct, none)
  else
    ((getOldestCatchpointFiles ct.store.registry 2 ct.catchpointFileHistoryLength).foldl
      cleanupOldFile ct, none)

/-- The label maker selected by `createCatchpoint` (the source's if/else
chain over the two consensus flags, for the legal combinations): the
"current" (V8) maker with online accounts, the V7 maker with only SP
contexts, the V6 maker with neither. -/
def selectLabel (env : Stage2Env) (round blockHash : Nat)
    (dataInfo : CatchpointFirstStageInfo) : CatchpointLabel :=
  if env.enableCatchpointsWithOnlineAccounts then
    .v8 round blockHash dataInfo.trieBalancesHash dataInfo.totals
      dataInfo.stateProofVerificationHash dataInfo.onlineAccountsHash
      dataInfo.onlineRoundParamsHash
  else if env.enableCatchpointsWithSPContexts then
    .v7 round blockHash dataInfo.trieBalancesHash dataInfo.totals
      dataInfo.stateProofVerificationHash
  else
    .v6 round blockHash dataInfo.trieBalancesHash dataInfo.totals

/-- The file version selected by `createCatchpoint` alongside the label
maker. -/
def selectVersion (env : Stage2Env) : Nat :=
  if env.enableCatchpointsWithOnlineAccounts then CatchpointFileVersionV8
  else if env.enableCatchpointsWithSPContexts then CatchpointFileVersionV7
  else CatchpointFileVersionV6

/-- Embedding of `catchpointTracker.createCatchpoint` from the source.
Selects the label maker and file version from the consensus flags (rejecting
"online accounts without SP contexts" before any write), stores the label
(`WriteCatchpointStateString` of `CatchpointStateLastCatchpoint` plus the
in-memory copy), and, when file generation is enabled and the stage-1 data
file exists, repacks it into the final archive and, in one store
transaction, records the file and deletes the unfinished-catchpoint row. -/
def createCatchpoint (env : Stage2Env) (accountsRound round : Nat)
    (dataInfo : CatchpointFirstStageInfo) (blockHash : Nat)
    (ct : CatchpointTracker) : CatchpointTracker × Option GoErr :=
  if env.enableCatchpointsWithOnlineAccounts ∧ ¬env.enableCatchpointsWithSPContexts then
    (ct, some .invalidV8Params)
  else
    let label : CatchpointLabel := selectLabel env round blockHash dataInfo
    let version : Nat := selectVersion env
    let ct := { ct with
      store := { ct.store with lastCatchpoint := some label },
      lastCatchpointLabel := some label }
    if ¬ct.enableGeneratingCatchpointFiles then (ct, none)
    else if dataFilePathFor accountsRound ∉ ct.dataFiles then (ct, none)
    else
      let header : CatchpointFileHeader :=
        ⟨version, accountsRound, round, dataInfo.totals, dataInfo.totalAccounts,
          dataInfo.totalKVs, dataInfo.totalOnlineAccounts,
          dataInfo.totalOnlineRoundParams, dataInfo.totalChunks, label, blockHash⟩
      let relPath := filepathJoin CatchpointDirName (MakeCatchpointFilePath round)
      if ¬env.repackOk then (ct, some .repackFailed)
      else
        let ct := { ct with
          coldFiles := (relPath, env.archiveSize) :: ct.coldFiles.filter (fun e => e.1 != relPath),
          archives := setRound ct.archives round header }
        -- store transaction: recordCatchpointFile, then DeleteUnfinishedCatchpoint.
        -- The modelled transaction body cannot fail (recordCatchpointFile_ok), so
        -- the error-propagation branch of the Go code is unreachable here.
        let ct := (recordCatchpointFile round relPath env.archiveSize ct).1
        ({ ct with store := { ct.store with
            unfinished := removeRound ct.store.unfinished round } }, none)

/-- Embedding of `catchpointTracker.finishCatchpoint` from the source: look
up the first-stage info for the accounts round `round - catchpointLookback`
(callers guarantee `round ≥ catchpointLookback`; the `uint64` subtraction is
modelled by the truncated natural subtraction); when it is missing, delete
the unfinished-catchpoint row and stop; otherwise run `createCatchpoint`. -/
def finishCatchpoint (env : Stage2Env) (round blockHash catchpointLookback : Nat)
    (ct : CatchpointTracker) : CatchpointTracker × Option GoErr :=
  match lookupRound ct.store.firstStageInfos (round - catchpointLookback) with
  | none =>
    ({ ct with store := { ct.store with
        unfinished := removeRound ct.store.unfinished round } }, none)
  | some dataInfo =>
    createCatchpoint env (round - catchpointLookback) round dataInfo blockHash ct

/-! ### Supporting lemmas about `recordCatchpointFile` -/

theorem recordCatchpointFile_ok (round : Nat) (relPath : String) (fileSize : Nat)
    (ct : CatchpointTracker) : (recordCatchpointFile round relPath fileSize ct).2 = none := by
  unfold recordCatchpointFile
  dsimp only
  repeat' split
  all_goals rfl

theorem fst_ne_of_mem_removeRound {α : Type} {l : List (Nat × α)} {r : Nat} {e : Nat × α}
    (h : e ∈ removeRound l r) : e.1 ≠ r := by
  induction l with
  | nil => simp [removeRound] at h
  | cons e0 rest ih =>
    obtain ⟨r0, v⟩ := e0
    by_cases h1 : r0 = r
    · rw [show removeRound ((r0, v) :: rest) r = removeRound rest r from by
        simp [removeRound, h1]] at h
      exact ih h
    · rw [show removeRound ((r0, v) :: rest) r = (r0, v) :: removeRound rest r from by
        simp [removeRound, h1]] at h
      rcases List.mem_cons.mp h with h2 | h2
      · rw [h2]; exact h1
      · exact ih h2

theorem getOldest_setRound_fst_ne (reg : List (Nat × String × Nat)) (round : Nat)
    (v : String × Nat) (keep : Int) (hkeep : 1 ≤ keep) :
    ∀ e ∈ getOldestCatchpointFiles (setRound reg round v) 2 keep, e.1 ≠ round := by
  intro e he
  unfold getOldestCatchpointFiles setRound at he
  split at he
  · simp at he
  · rename_i hlen
    rw [List.length_append] at hlen
    have hm : min 2 ((removeRound reg round ++ [(round, v)]).length - keep.toNat) ≤
        (removeRound reg round).length := by
      rw [List.length_append]
      simp only [List.length_cons, List.length_nil]
      omega
    rw [List.take_append_of_le_length hm] at he
    exact fst_ne_of_mem_removeRound (List.take_subset _ _ he)

theorem foldl_cleanupOldFile_registry (L : List (Nat × String × Nat)) (round : Nat) :
    ∀ ct : CatchpointTracker, (∀ e ∈ L, e.1 ≠ round) →
      lookupRound (L.foldl cleanupOldFile ct).store.registry round =
        lookupRound ct.store.registry round := by
  induction L with
  | nil => intro ct _; rfl
  | cons e rest ih =>
    intro ct h
    rw [List.foldl_cons, ih _ (fun e' he' => h e' (List.mem_cons_of_mem e he'))]
    show lookupRound (storeCatchpoint ct.store.registry e.1 "" 0) round = _
    rw [show storeCatchpoint ct.store.registry e.1 "" 0 =
      removeRound ct.store.registry e.1 from rfl]
    exact lookupRound_removeRound_ne _ _ _ (fun hc => h e (List.mem_cons_self e rest) hc.symm)

theorem foldl_cleanupOldFile_unfinished (L : List (Nat × String × Nat))
    (ct : CatchpointTracker) :
    (L.foldl cleanupOldFile ct).store.unfinished = ct.store.unfinished := by
  induction L generalizing ct with
  | nil => rfl
  | cons e rest ih => rw [List.foldl_cons, ih]; rfl

/-- After `recordCatchpointFile` with a non-empty path and a history length
that is `-1` or at least 1, the registry row for the recorded round is
present (the cleanup loop can only remove other, older rows). -/
theorem recordCatchpointFile_registry_self (round : Nat) (relPath : String)
    (fileSize : Nat) (ct : CatchpointTracker) (hpath : relPath ≠ "")
    (hhist : ct.catchpointFileHistoryLength = -1 ∨ 1 ≤ ct.catchpointFileHistoryLength) :
    lookupRound (recordCatchpointFile round relPath fileSize ct).1.store.registry round =
      some (relPath, fileSize) := by
  have hne : ct.catchpointFileHistoryLength ≠ 0 := by omega
  unfold recordCatchpointFile
  dsimp only
  rw [if_pos hne]
  dsimp only
  rcases hhist with h1 | h1
  · rw [if_pos h1]
    show lookupRound (storeCatchpoint ct.store.registry round relPath fileSize) round = _
    rw [storeCatchpoint, if_neg hpath]
    exact lookupRound_setRound_self _ _ _
  · rw [if_neg (by omega)]
    show lookupRound ((getOldestCatchpointFiles
        (storeCatchpoint ct.store.registry round relPath fileSize) 2
        ct.catchpointFileHistoryLength).foldl cleanupOldFile _).store.registry round = _
    rw [show storeCatchpoint ct.store.registry round relPath fileSize =
      setRound ct.store.registry round (relPath, fileSize) from by
        rw [storeCatchpoint, if_neg hpath]]
    rw [foldl_cleanupOldFile_registry _ round _
      (getOldest_setRound_fst_ne ct.store.registry round (relPath, fileSize)
        ct.catchpointFileHistoryLength h1)]
    exact lookupRound_setRound_self _ _ _

theorem recordCatchpointFile_unfinished (round : Nat) (relPath : String)
    (fileSize : Nat) (ct : CatchpointTracker) :
    (recordCatchpointFile round relPath fileSize ct).1.store.unfinished =
      ct.store.unfinished := by
  unfold recordCatchpointFile
  dsimp only
  repeat' split
  all_goals simp [foldl_cleanupOldFile_unfinished]

/-! ### C4: version and label selection in `createCatchpoint` -/

theorem foldl_cleanupOldFile_archives (L : List (Nat × String × Nat))
    (ct : CatchpointTracker) :
    (L.foldl cleanupOldFile ct).archives = ct.archives := by
  induction L generalizing ct with
  | nil => rfl
  | cons e rest ih => rw [List.foldl_cons, ih]; rfl

theorem foldl_cleanupOldFile_label (L : List (Nat × String × Nat))
    (ct : CatchpointTracker) :
    (L.foldl cleanupOldFile ct).lastCatchpointLabel = ct.lastCatchpointLabel := by
  induction L generalizing ct with
  | nil => rfl
  | cons e rest ih => rw [List.foldl_cons, ih]; rfl

theorem recordCatchpointFile_archives (round : Nat) (relPath : String) (fileSize : Nat)
    (ct : CatchpointTracker) :
    (recordCatchpointFile round relPath fileSize ct).1.archives = ct.archives := by
  unfold recordCatchpointFile
  dsimp only
  repeat' split
  all_goals simp [foldl_cleanupOldFile_archives]

theorem recordCatchpointFile_label (round : Nat) (relPath : String) (fileSize : Nat)
    (ct : CatchpointTracker) :
    (recordCatchpointFile round relPath fileSize ct).1.lastCatchpointLabel =
      ct.lastCatchpointLabel := by
  unfold recordCatchpointFile
  dsimp only
  repeat' split
  all_goals simp [foldl_cleanupOldFile_label]

/-- Shape of `createCatchpoint` for the legal flag combinations: the label
written (both to the store and to the in-memory field) is the one made by
the selected label maker, and the archive for the round, when one is
written, carries the selected file version. -/
theorem createCatchpoint_shape (env : Stage2Env) (accountsRound round : Nat)
    (dataInfo : CatchpointFirstStageInfo) (blockHash : Nat) (ct : CatchpointTracker)
    (hlegal : ¬(env.enableCatchpointsWithOnlineAccounts = true ∧
      env.enableCatchpointsWithSPContexts = false)) :
    (createCatchpoint env accountsRound round dataInfo blockHash ct).1.lastCatchpointLabel =
      some (selectLabel env round blockHash dataInfo) ∧
    ((createCatchpoint env accountsRound round dataInfo blockHash ct).1.archives =
        ct.archives ∨
      ∃ hdr, lookupRound
          (createCatchpoint env accountsRound round dataInfo blockHash ct).1.archives
          round = some hdr ∧ hdr.version = selectVersion env) := by
  unfold createCatchpoint
  rw [if_neg (by simpa using hlegal)]
  by_cases hgen : ct.enableGeneratingCatchpointFiles
  · rw [if_neg (by simpa using hgen)]
    by_cases hmem : dataFilePathFor accountsRound ∈ ct.dataFiles
    · rw [if_neg (by simpa using hmem)]
      by_cases hrep : env.repackOk
      · rw [if_neg (by simpa using hrep)]
        constructor
        · show (recordCatchpointFile round _ env.archiveSize _).1.lastCatchpointLabel = _
          rw [recordCatchpointFile_label]
        · refine Or.inr ⟨⟨selectVersion env, accountsRound, round, dataInfo.totals,
            dataInfo.totalAccounts, dataInfo.totalKVs, dataInfo.totalOnlineAccounts,
            dataInfo.totalOnlineRoundParams, dataInfo.totalChunks,
            selectLabel env round blockHash dataInfo, blockHash⟩, ?_, rfl⟩
          show lookupRound (recordCatchpointFile round _ env.archiveSize _).1.archives round = _
          rw [recordCatchpointFile_archives]
          exact lookupRound_setRound_self _ _ _
      · rw [if_pos (by simpa using hrep)]
        exact ⟨rfl, Or.inl rfl⟩
    · rw [if_pos (by simpa using hmem)]
      exact ⟨rfl, Or.inl rfl⟩
  · rw [if_pos (by simpa using hgen)]
    exact ⟨rfl, Or.inl rfl⟩

/-- C4: `createCatchpoint` selects the file version and label maker as a
pure function of the consensus flags (V8 when online accounts are enabled,
V7 when only SP contexts are enabled, V6 when neither), and when the
online-accounts flag is set without the SP-contexts flag it returns an
error with the state unchanged, before writing any label or file. -/
theorem createCatchpoint_version_selection (env : Stage2Env)
    (accountsRound round : Nat) (dataInfo : CatchpointFirstStageInfo)
    (blockHash : Nat) (ct : CatchpointTracker) :
    (env.enableCatchpointsWithOnlineAccounts = true →
      env.enableCatchpointsWithSPContexts = false →
      createCatchpoint env accountsRound round dataInfo blockHash ct =
        (ct, some GoErr.invalidV8Params)) ∧
    (env.enableCatchpointsWithOnlineAccounts = true →
      env.enableCatchpointsWithSPContexts = true →
      (createCatchpoint env accountsRound round dataInfo blockHash ct).1.lastCatchpointLabel =
        some (.v8 round blockHash dataInfo.trieBalancesHash dataInfo.totals
          dataInfo.stateProofVerificationHash dataInfo.onlineAccountsHash
          dataInfo.onlineRoundParamsHash) ∧
      ((createCatchpoint env accountsRound round dataInfo blockHash ct).1.archives =
          ct.archives ∨
        ∃ hdr, lookupRound
            (createCatchpoint env accountsRound round dataInfo blockHash ct).1.archives
            round = some hdr ∧ hdr.version = CatchpointFileVersionV8)) ∧
    (env.enableCatchpointsWithOnlineAccounts = false →
      env.enableCatchpointsWithSPContexts = true →
      (createCatchpoint env accountsRound round dataInfo blockHash ct).1.lastCatchpointLabel =
        some (.v7 round blockHash dataInfo.trieBalancesHash dataInfo.totals
          dataInfo.stateProofVerificationHash) ∧
      ((createCatchpoint env accountsRound round dataInfo blockHash ct).1.archives =
          ct.archives ∨
        ∃ hdr, lookupRound
            (createCatchpoint env accountsRound round dataInfo blockHash ct).1.archives
            round = some hdr ∧ hdr.version = CatchpointFileVersionV7)) ∧
    (env.enableCatchpointsWithOnlineAccounts = false →
      env.enableCatchpointsWithSPContexts = false →
      (createCatchpoint env accountsRound round dataInfo blockHash ct).1.lastCatchpointLabel =
        some (.v6 round blockHash dataInfo.trieBalancesHash dataInfo.totals) ∧
      ((createCatchpoint env accountsRound round dataInfo blockHash ct).1.archives =
          ct.archives ∨
        ∃ hdr, lookupRound
            (createCatchpoint env accountsRound round dataInfo blockHash ct).1.archives
            round = some hdr ∧ hdr.version = CatchpointFileVersionV6)) := by
  refine ⟨?_, ?_, ?_, ?_⟩
  · intro h1 h2
    unfold createCatchpoint
    rw [if_pos (by simp [h1, h2])]
  · intro h1 h2
    have h := createCatchpoint_shape env accountsRound round dataInfo blockHash ct
      (by simp [h2])
    simp only [selectLabel, selectVersion, h1, h2, if_true] at h
    exact h
  · intro h1 h2
    have h := createCatchpoint_shape env accountsRound round dataInfo blockHash ct
      (by simp [h1])
    simp only [selectLabel, selectVersion, h1, h2, if_true, Bool.false_eq_true,
      if_false] at h
    exact h
  · intro h1 h2
    have h := createCatchpoint_shape env accountsRound round dataInfo blockHash ct
      (by simp [h1])
    simp only [selectLabel, selectVersion, h1, h2, Bool.false_eq_true, if_false] at h
    exact h

/-! ### C7: `finishCatchpoint` -/

theorem filepathJoin_ne_empty (a b : String) : filepathJoin a b ≠ "" := by
  intro h
  have h2 := congrArg String.length h
  rw [filepathJoin, String.length_append, String.length_append] at h2
  have h3 : String.length "/" = 1 := rfl
  have h4 : String.length "" = 0 := rfl
  omega

/-- C7 (amended): when `finishCatchpoint` finds no first-stage info for the
accounts round `round - catchpointLookback`, it deletes the
unfinished-catchpoint marker for the round and returns without creating any
label or archive (the state changes only by that deletion); when the info
exists it proceeds to `createCatchpoint`; and — when file generation is
enabled, the stage-1 data file exists and the file-history configuration
keeps files (`-1` or `≥ 1`) — a successful run leaves the final file
recorded in the registry and the unfinished marker deleted, both written in
the same store transaction. -/
theorem finishCatchpoint_spec (env : Stage2Env) (round blockHash catchpointLookback : Nat)
    (ct : CatchpointTracker) :
    (lookupRound ct.store.firstStageInfos (round - catchpointLookback) = none →
      finishCatchpoint env round blockHash catchpointLookback ct =
        ({ ct with store := { ct.store with
            unfinished := removeRound ct.store.unfinished round } }, none)) ∧
    (∀ info, lookupRound ct.store.firstStageInfos (round - catchpointLookback) = some info →
      finishCatchpoint env round blockHash catchpointLookback ct =
        createCatchpoint env (round - catchpointLookback) round info blockHash ct) ∧
    (∀ info, lookupRound ct.store.firstStageInfos (round - catchpointLookback) = some info →
      ct.enableGeneratingCatchpointFiles = true →
      dataFilePathFor (round - catchpointLookback) ∈ ct.dataFiles →
      (ct.catchpointFileHistoryLength = -1 ∨ 1 ≤ ct.catchpointFileHistoryLength) →
      (finishCatchpoint env round blockHash catchpointLookback ct).2 = none →
      lookupRound
          (finishCatchpoint env round blockHash catchpointLookback ct).1.store.registry
          round =
        some (filepathJoin CatchpointDirName (MakeCatchpointFilePath round),
          env.archiveSize) ∧
      lookupRound
          (finishCatchpoint env round blockHash catchpointLookback ct).1.store.unfinished
          round = none) := by
  refine ⟨?_, ?_, ?_⟩
  · intro h
    unfold finishCatchpoint
    rw [h]
  · intro info h
    unfold finishCatchpoint
    rw [h]
  · intro info h hgen hmem hhist hok
    have heq : finishCatchpoint env round blockHash catchpointLookback ct =
        createCatchpoint env (round - catchpointLookback) round info blockHash ct := by
      unfold finishCatchpoint
      rw [h]
    rw [heq] at hok ⊢
    unfold createCatchpoint at hok ⊢
    by_cases hlegal : env.enableCatchpointsWithOnlineAccounts = true ∧
        env.enableCatchpointsWithSPContexts = false
    · rw [if_pos (by simpa using hlegal)] at hok
      simp at hok
    · rw [if_neg (by simpa using hlegal)] at hok ⊢
      dsimp only at hok ⊢
      rw [if_neg (by simpa using hgen)] at hok ⊢
      rw [if_neg (by simpa using hmem)] at hok ⊢
      by_cases hrep : env.repackOk
      · rw [if_neg (by simpa using hrep)] at hok ⊢
        constructor
        · show lookupRound
            (recordCatchpointFile round _ env.archiveSize _).1.store.registry round = _
          exact recordCatchpointFile_registry_self _ _ _ _
            (filepathJoin_ne_empty _ _) hhist
        · show lookupRound (removeRound
            (recordCatchpointFile round _ env.archiveSize _).1.store.unfinished round)
            round = none
          exact lookupRound_removeRound_self _ _
      · rw [if_pos (by simpa using hrep)] at hok
        simp at hok

/-! ### Example states and oracles used by the concrete witnesses -/

def egInfo : CatchpointFirstStageInfo := ⟨1, 2, 3, 4, 5, 6, 7, 8, 9, 10, 11⟩

def egStage1Env : Stage1Env :=
  ⟨true, true, some 21, some 22, some 23, some ⟨2, 3, 4, 5, 6, 7⟩, some 24, some 25⟩

def egTracker : CatchpointTracker :=
  { catchpointInterval := 100
    catchpointFileHistoryLength := 365
    enableGeneratingCatchpointFiles := true
    lastCatchpointLabel := none
    catchpointDataWriting := -1
    slowWritingClosed := false
    reenableCatchpointsRound := 1
    cachedDBRound := 0
    balancesTrie := []
    store := ⟨1, 320, none, [], [], []⟩
    dataFiles := []
    coldFiles := []
    archives := [] }

/-- C3 witness: the theorem applied at a concrete crashed state
(`WritingFirstStageInfo = 1`) with all external calls succeeding: the
stage-1 replay is exactly the deletion of the stale data file followed by
`finishFirstStage`, and the flag ends cleared. -/
theorem finishFirstStage_crash_recovery_witness :
    finishFirstStageAfterCrash egStage1Env 5 egTracker =
      finishFirstStage egStage1Env 5
        { egTracker with
          dataFiles := removeDataFile egTracker.dataFiles (dataFilePathFor 5) } ∧
    (finishFirstStageAfterCrash egStage1Env 5 egTracker).1.store.writingFirstStageInfo = 0 := by
  have h := (finishFirstStage_crash_recovery egStage1Env 5 egTracker).2.2.2 (by decide)
  exact ⟨h.1, h.2 (by decide)⟩

/-- C4 witness: the theorem applied at concrete inputs — the V8/V7-mismatch
configuration errors with the state unchanged, and the fully-enabled
configuration stores the V8 label built from the round, block hash and
first-stage info. -/
theorem createCatchpoint_version_selection_witness :
    createCatchpoint ⟨false, true, false, 0⟩ 80 400 egInfo 7 egTracker =
      (egTracker, some GoErr.invalidV8Params) ∧
    (createCatchpoint ⟨true, true, true, 9⟩ 80 400 egInfo 7 egTracker).1.lastCatchpointLabel =
      some (.v8 400 7 8 1 9 10 11) := by
  refine ⟨(createCatchpoint_version_selection ⟨false, true, false, 0⟩ 80 400 egInfo 7
    egTracker).1 rfl rfl, ?_⟩
  exact ((createCatchpoint_version_selection ⟨true, true, true, 9⟩ 80 400 egInfo 7
    egTracker).2.1 rfl rfl).1

def cexStage2Env : Stage2Env := ⟨true, false, true, 0⟩

def cexTracker : CatchpointTracker :=
  { catchpointInterval := 100
    catchpointFileHistoryLength := 365
    enableGeneratingCatchpointFiles := false
    lastCatchpointLabel := none
    catchpointDataWriting := 0
    slowWritingClosed := false
    reenableCatchpointsRound := 1
    cachedDBRound := 0
    balancesTrie := []
    store := ⟨0, 320, none, [(80, egInfo)], [(400, 7)], []⟩
    dataFiles := []
    coldFiles := []
    archives := [] }

/-- C7 counterexample: with file generation disabled, the first-stage info
for accounts round 80 present and an unfinished marker for round 400,
`finishCatchpoint(400)` reaches `createCatchpoint`, which succeeds after
writing only the label — yet the unfinished marker survives and no file is
recorded, refuting the claim that the success path of `createCatchpoint`
records the final file and deletes the unfinished marker. -/
theorem finishCatchpoint_disabledGeneration_cex :
    (finishCatchpoint cexStage2Env 400 7 320 cexTracker).2 = none ∧
    lookupRound (finishCatchpoint cexStage2Env 400 7 320 cexTracker).1.store.unfinished 400 =
      some 7 ∧
    (finishCatchpoint cexStage2Env 400 7 320 cexTracker).1.store.registry = [] := by
  decide

def egTrackerNoInfo : CatchpointTracker :=
  { egTracker with store := ⟨0, 320, none, [], [(400, 7)], []⟩ }

/-- C7 witness: the theorem applied at a concrete state with no first-stage
info: the unfinished marker for round 400 is deleted and nothing else
happens. -/
theorem finishCatchpoint_spec_witness :
    finishCatchpoint cexStage2Env 400 7 320 egTrackerNoInfo =
      ({ egTrackerNoInfo with store := { egTrackerNoInfo.store with
          unfinished := removeRound egTrackerNoInfo.store.unfinished 400 } }, none) :=
  (finishCatchpoint_spec cexStage2Env 400 7 320 egTrackerNoInfo).1 (by decide)

/-! ## C5: `doRepackCatchpoint` -/

/-- A tar header (the fields used by the repacker). -/
structure TarHeader where
  name : String
  mode : Nat
  size : Nat
deriving DecidableEq, Repr

/-- A tar entry as surfaced by `tar.Reader`: the declared header and the
bytes the underlying stream actually yields for the entry (at most
`header.size`; fewer when the archive is truncated). -/
structure TarEntry where
  header : TarHeader
  content : List Nat
deriving DecidableEq, Repr

/-- One iteration of the copy loop of `doRepackCatchpoint`:
`io.ReadAtLeast(in, buf, int(header.Size))` into the reusable buffer of
length `biggestChunkLen`, the error filter (`err != nil && err != io.EOF`),
and the `int64(n) != header.Size` check; on success the bytes
`buf[:header.Size]` are the entry's copied contents. `ReadAtLeast` returns
`ErrShortBuffer` when the buffer is shorter than the requested minimum,
`ErrUnexpectedEOF` when it reads some but fewer than the requested bytes,
and plain `EOF` (which the code lets through to the size check) when it
reads nothing. -/
def readEntry (biggestChunkLen : Nat) (e : TarEntry) : Except GoErr (List Nat) :=
  if biggestChunkLen < e.header.size then .error .shortBuffer
  else
    let n := min e.content.length e.header.size
    if n < e.header.size ∧ 0 < n then .error .unexpectedEOF
    else if n ≠ e.header.size then .error .sizeMismatch
    else .ok (e.content.take e.header.size)

/-- The copy loop of `doRepackCatchpoint` over the input entries: each
copied entry keeps its header and carries the bytes read. The loop stops at
the first failing entry with its error (the operation then fails as a
whole, so entries already emitted are not observable). -/
def repackEntries (biggestChunkLen : Nat) : List TarEntry → Except GoErr (List TarEntry)
  | [] => .ok []
  | e :: rest =>
    match readEntry biggestChunkLen e with
    | .error er => .error er
    | .ok c =>
      match repackEntries biggestChunkLen rest with
      | .error er => .error er
      | .ok tail => .ok (⟨e.header, c⟩ :: tail)

/-- Embedding of `doRepackCatchpoint` from the source, with the canonical
msgpack encoder `protocol.Encode` (outside the sources) taken as a function
parameter. Writes the encoded header as the first output entry (name
`content.msgpack`, mode 0600, size the encoding's length), then copies each
remaining input entry. Context cancellation is not modelled. -/
def doRepackCatchpoint (encode : CatchpointFileHeader → List Nat)
    (header : CatchpointFileHeader) (biggestChunkLen : Nat)
    (input : List TarEntry) : Except GoErr (List TarEntry) :=
  match repackEntries biggestChunkLen input with
  | .error er => .error er
  | .ok rest =>
    .ok (⟨⟨CatchpointContentFileName, 0o600, (encode header).length⟩, encode header⟩ :: rest)

theorem repackEntries_ok (biggestChunkLen : Nat) (input : List TarEntry)
    (hwf : ∀ e ∈ input, e.content.length = e.header.size ∧
      e.header.size ≤ biggestChunkLen) :
    repackEntries biggestChunkLen input = .ok input := by
  induction input with
  | nil => rfl
  | cons e rest ih =>
    obtain ⟨hlen, hfit⟩ := hwf e (List.mem_cons_self e rest)
    have hread : readEntry biggestChunkLen e = .ok e.content := by
      unfold readEntry
      rw [if_neg (by omega), if_neg (by omega), if_neg (by omega)]
      rw [← hlen, List.take_length]
    rw [repackEntries, hread, ih (fun e' he' => hwf e' (List.mem_cons_of_mem e he'))]

theorem repackEntries_error (biggestChunkLen : Nat) (input : List TarEntry)
    (hbad : ∃ e ∈ input, e.content.length < e.header.size) :
    ∃ er, repackEntries biggestChunkLen input = .error er := by
  induction input with
  | nil => simp at hbad
  | cons e rest ih =>
    rw [repackEntries]
    cases hr : readEntry biggestChunkLen e with
    | error er => exact ⟨er, rfl⟩
    | ok c =>
      have hgood : ¬ e.content.length < e.header.size := by
        intro hlt
        unfold readEntry at hr
        by_cases hfit : biggestChunkLen < e.header.size
        · rw [if_pos hfit] at hr
          exact Except.noConfusion hr
        · rw [if_neg hfit] at hr
          by_cases hz : 0 < e.content.length
          · rw [if_pos (by omega)] at hr
            exact Except.noConfusion hr
          · rw [if_neg (by omega), if_pos (by omega)] at hr
            exact Except.noConfusion hr
      obtain ⟨e', he', hlt⟩ := hbad
      rcases List.mem_cons.mp he' with rfl | he'
      · exact absurd hlt hgood
      · obtain ⟨er, her⟩ := ih ⟨e', he', hlt⟩
        rw [her]
        exact ⟨er, rfl⟩

/-- C5: for a well-formed input stream (each entry's bytes match its
declared size, which fits the reusable buffer), `doRepackCatchpoint`
succeeds and its output is exactly the encoded-header entry (named
`content.msgpack`) followed by the input entries with identical headers and
contents — reading the repacked archive back yields the prepended header
first and then the original chunks in order; and whenever some entry yields
fewer bytes than its declared size, the repack returns an error. -/
theorem doRepackCatchpoint_spec (encode : CatchpointFileHeader → List Nat)
    (header : CatchpointFileHeader) (biggestChunkLen : Nat) (input : List TarEntry) :
    ((∀ e ∈ input, e.content.length = e.header.size ∧
        e.header.size ≤ biggestChunkLen) →
      doRepackCatchpoint encode header biggestChunkLen input =
        .ok (⟨⟨CatchpointContentFileName, 0o600, (encode header).length⟩,
          encode header⟩ :: input)) ∧
    ((∃ e ∈ input, e.content.length < e.header.size) →
      ∃ er, doRepackCatchpoint encode header biggestChunkLen input = .error er) := by
  constructor
  · intro hwf
    unfold doRepackCatchpoint
    rw [repackEntries_ok biggestChunkLen input hwf]
  · intro hbad
    obtain ⟨er, her⟩ := repackEntries_error biggestChunkLen input hbad
    refine ⟨er, ?_⟩
    unfold doRepackCatchpoint
    rw [her]

def egHeader : CatchpointFileHeader := ⟨0o201, 80, 400, 1, 2, 3, 4, 5, 6, .v6 400 7 8 1, 7⟩

/-- C5 witness: the theorem applied at a concrete stream of one well-formed
balances chunk, with a concrete three-byte header encoding, together with
the error case at a concrete truncated entry. -/
theorem doRepackCatchpoint_spec_witness :
    doRepackCatchpoint (fun _ => [1, 2, 3]) egHeader 10
        [⟨⟨"balances.1.msgpack", 0o600, 2⟩, [5, 6]⟩] =
      .ok [⟨⟨CatchpointContentFileName, 0o600, 3⟩, [1, 2, 3]⟩,
        ⟨⟨"balances.1.msgpack", 0o600, 2⟩, [5, 6]⟩] ∧
    (∃ er, doRepackCatchpoint (fun _ => [1, 2, 3]) egHeader 10
        [⟨⟨"balances.1.msgpack", 0o600, 2⟩, [5]⟩] = .error er) := by
  constructor
  · exact (doRepackCatchpoint_spec (fun _ => [1, 2, 3]) egHeader 10
      [⟨⟨"balances.1.msgpack", 0o600, 2⟩, [5, 6]⟩]).1 (by decide)
  · exact (doRepackCatchpoint_spec (fun _ => [1, 2, 3]) egHeader 10
      [⟨⟨"balances.1.msgpack", 0o600, 2⟩, [5]⟩]).2
      ⟨⟨⟨"balances.1.msgpack", 0o600, 2⟩, [5]⟩, by decide, by decide⟩

/-! ## C6: `accountsUpdateBalances`

The merkle trie (`crypto/merkletrie`, outside the sources) is black-boxed
per spec §4.2 as a set of digests: `Add` returns true iff the digest was
newly added, `Delete` true iff it was actually removed, and neither errors.
The hash builders (`trackerdb.AccountHashBuilderV6`,
`ResourcesHashBuilderV6`, `KvHashBuilderV6`, outside the sources) are
abstract function parameters with the msgpack encoding folded in. The Go
map iteration over `kvDeltas` is modelled by the order of the given list.
Every trie call and the final `Commit` are recorded in a trace so that
theorems can speak about the calls made; `oldBase`/`newBase` feed only
telemetry and are omitted. -/

/-- An account-data value as seen by the delta loops: emptiness plus an
opaque payload fed to the hash builder. -/
structure AccountData where
  isEmpty : Bool
  payload : Nat
deriving DecidableEq, Repr

/-- One compacted account delta (`accountsDeltas.getByIdx(i)`). -/
structure AcctDelta where
  address : Nat
  oldAcct : AccountData
  newAcct : AccountData
deriving DecidableEq, Repr

/-- A resource-data value: emptiness, the update round (a hash-builder
input) and an opaque payload. -/
structure ResourceData where
  isEmpty : Bool
  updateRound : Nat
  payload : Nat
deriving DecidableEq, Repr

/-- One compacted resource delta (`resourcesDeltas.getByIdx(i)`); the old
persisted resource carries the creatable index `oldAidx`, which the source
uses for both the delete hash and the add hash. -/
structure ResDelta where
  address : Nat
  oldAidx : Nat
  oldResource : ResourceData
  newResource : ResourceData
deriving DecidableEq, Repr

/-- One KV delta (`modifiedKvValue`): old and new payloads, `none` for an
absent (Go nil) slice. -/
structure KvDelta where
  oldData : Option (List Nat)
  data : Option (List Nat)
deriving DecidableEq, Repr

/-- One observed merkle-trie operation, with the boolean the trie returned,
plus the final `Commit`. -/
inductive TrieOp where
  | add (h : Nat) (added : Bool)
  | del (h : Nat) (deleted : Bool)
  | commit
deriving DecidableEq, Repr

/-- The call underlying an observed operation (which digest was added or
deleted), ignoring the returned boolean; `Commit` is not a call. -/
inductive TrieCall where
  | add (h : Nat)
  | del (h : Nat)
deriving DecidableEq, Repr

def TrieOp.call : TrieOp → Option TrieCall
  | .add h _ => some (.add h)
  | .del h _ => some (.del h)
  | .commit => none

/-- Whether the operation actually changed the trie. -/
def TrieOp.changed : TrieOp → Bool
  | .add _ b => b
  | .del _ b => b
  | .commit => false

/-- `balancesTrie.Add`: true iff the digest was absent. -/
def trieAdd (t : List Nat) (h : Nat) : Bool × List Nat :=
  if h ∈ t then (false, t) else (true, h :: t)

/-- `balancesTrie.Delete`: true iff the digest was present. -/
def trieDel (t : List Nat) (h : Nat) : Bool × List Nat :=
  if h ∈ t then (true, t.erase h) else (false, t)

/-- Working state of the delta loops: the trie, `accumulatedChanges`, and
the trace of operations so far. -/
abbrev TrieLoopState := List Nat × Nat × List TrieOp

/-- One `Delete` call with the source's log-or-count pattern: the op is
recorded, and `accumulatedChanges` grows iff the trie changed (a false
return is logged, not an error). -/
def stepDel (s : TrieLoopState) (h : Nat) : TrieLoopState :=
  ((trieDel s.1 h).2, s.2.1 + (if (trieDel s.1 h).1 then 1 else 0),
    s.2.2 ++ [.del h (trieDel s.1 h).1])

/-- One `Add` call with the source's log-or-count pattern. -/
def stepAdd (s : TrieLoopState) (h : Nat) : TrieLoopState :=
  ((trieAdd s.1 h).2, s.2.1 + (if (trieAdd s.1 h).1 then 1 else 0),
    s.2.2 ++ [.add h (trieAdd s.1 h).1])

/-- The account-delta loop body: delete the old hash if the old account
data is non-empty, then add the new hash if the new account data is
non-empty. -/
def applyAcctDelta (hashA : Nat → AccountData → Nat) (s : TrieLoopState)
    (d : AcctDelta) : TrieLoopState :=
  let s := if ¬d.oldAcct.isEmpty then stepDel s (hashA d.address d.oldAcct) else s
  if ¬d.newAcct.isEmpty then stepAdd s (hashA d.address d.newAcct) else s

/-- The resource-delta loop body; both hashes use the old resource's
creatable index, the delete hash the old update round and the add hash the
new one, as in the source. -/
def applyResDelta (hashR : ResourceData → Nat → Nat → Nat → Nat) (s : TrieLoopState)
    (d : ResDelta) : TrieLoopState :=
  let s := if ¬d.oldResource.isEmpty then
      stepDel s (hashR d.oldResource d.address d.oldAidx d.oldResource.updateRound)
    else s
  if ¬d.newResource.isEmpty then
    stepAdd s (hashR d.newResource d.address d.oldAidx d.newResource.updateRound)
  else s

/-- The KV-delta loop body: both payloads absent — skip; both present and
byte-equal — skip; otherwise delete the old hash when the old payload is
present and add the new hash when the new payload is present. -/
def applyKvDelta (hashKV : String → List Nat → Nat) (s : TrieLoopState)
    (kv : String × KvDelta) : TrieLoopState :=
  match kv.2.oldData, kv.2.data with
  | none, none => s
  | some o, some d => if o = d then s else stepAdd (stepDel s (hashKV kv.1 o)) (hashKV kv.1 d)
  | some o, none => stepDel s (hashKV kv.1 o)
  | none, some d => stepAdd s (hashKV kv.1 d)

/-- Embedding of `catchpointTracker.accountsUpdateBalances` from the
source: nothing when catchpoints are disabled; otherwise apply the account,
resource and KV delta loops to the balances trie, and call `Commit` iff at
least one operation actually changed the trie. Returns the updated tracker
and the trace of trie operations. -/
def accountsUpdateBalances (hashA : Nat → AccountData → Nat)
    (hashR : ResourceData → Nat → Nat → Nat → Nat)
    (hashKV : String → List Nat → Nat)
    (accountsDeltas : List AcctDelta) (resourcesDeltas : List ResDelta)
    (kvDeltas : List (String × KvDelta)) (ct : CatchpointTracker) :
    CatchpointTracker × List TrieOp :=
  if ¬ct.catchpointEnabled then (ct, [])
  else
    let s1 := accountsDeltas.foldl (applyAcctDelta hashA) (ct.balancesTrie, 0, [])
    let s2 := resourcesDeltas.foldl (applyResDelta hashR) s1
    let s3 := kvDeltas.foldl (applyKvDelta hashKV) s2
    if s3.2.1 > 0 then
      ({ ct with balancesTrie := s3.1 }, s3.2.2 ++ [.commit])
    else
      ({ ct with balancesTrie := s3.1 }, s3.2.2)

/-- Spec-side transcription of the C6 claim for one account delta: delete
the old hash iff the old value is non-empty, then add the new hash iff the
new value is non-empty. -/
def specAcctCalls (hashA : Nat → AccountData → Nat) (d : AcctDelta) : List TrieCall :=
  (if d.oldAcct.isEmpty then [] else [.del (hashA d.address d.oldAcct)]) ++
  (if d.newAcct.isEmpty then [] else [.add (hashA d.address d.newAcct)])

/-- Spec-side transcription of the C6 claim for one resource delta. -/
def specResCalls (hashR : ResourceData → Nat → Nat → Nat → Nat) (d : ResDelta) :
    List TrieCall :=
  (if d.oldResource.isEmpty then []
   else [.del (hashR d.oldResource d.address d.oldAidx d.oldResource.updateRound)]) ++
  (if d.newResource.isEmpty then []
   else [.add (hashR d.newResource d.address d.oldAidx d.newResource.updateRound)])

/-- Spec-side transcription of the C6 claim for one KV delta: both-absent
and byte-equal deltas make no calls; otherwise the present old payload is
deleted and the present new payload added. -/
def specKvCalls (hashKV : String → List Nat → Nat) (kv : String × KvDelta) :
    List TrieCall :=
  match kv.2.oldData, kv.2.data with
  | none, none => []
  | some o, some d => if o = d then [] else [.del (hashKV kv.1 o), .add (hashKV kv.1 d)]
  | some o, none => [.del (hashKV kv.1 o)]
  | none, some d => [.add (hashKV kv.1 d)]

/-! ### C6 proof machinery -/

/-- Number of operations in a trace that actually changed the trie. -/
def countChanged (ops : List TrieOp) : Nat := (ops.filter TrieOp.changed).length

/-- Invariant of the delta loops: `accumulatedChanges` counts exactly the
changed operations, and no `Commit` has been recorded yet. -/
def TrieInv (s : TrieLoopState) : Prop :=
  s.2.1 = countChanged s.2.2 ∧ TrieOp.commit ∉ s.2.2

theorem countChanged_append (a b : List TrieOp) :
    countChanged (a ++ b) = countChanged a + countChanged b := by
  simp [countChanged, List.filter_append]

theorem stepDel_call (s : TrieLoopState) (h : Nat) :
    ((stepDel s h).2.2).filterMap TrieOp.call =
      (s.2.2).filterMap TrieOp.call ++ [TrieCall.del h] := by
  simp [stepDel, List.filterMap_append, TrieOp.call]

theorem stepAdd_call (s : TrieLoopState) (h : Nat) :
    ((stepAdd s h).2.2).filterMap TrieOp.call =
      (s.2.2).filterMap TrieOp.call ++ [TrieCall.add h] := by
  simp [stepAdd, List.filterMap_append, TrieOp.call]

theorem stepDel_inv (s : TrieLoopState) (h : Nat) (hs : TrieInv s) :
    TrieInv (stepDel s h) := by
  obtain ⟨h1, h2⟩ := hs
  constructor
  · show s.2.1 + _ = countChanged (s.2.2 ++ [.del h (trieDel s.1 h).1])
    rw [countChanged_append, h1]
    cases hb : (trieDel s.1 h).1 <;> simp [hb, countChanged, List.filter, TrieOp.changed]
  · show TrieOp.commit ∉ s.2.2 ++ [.del h (trieDel s.1 h).1]
    simp [h2]

theorem stepAdd_inv (s : TrieLoopState) (h : Nat) (hs : TrieInv s) :
    TrieInv (stepAdd s h) := by
  obtain ⟨h1, h2⟩ := hs
  constructor
  · show s.2.1 + _ = countChanged (s.2.2 ++ [.add h (trieAdd s.1 h).1])
    rw [countChanged_append, h1]
    cases hb : (trieAdd s.1 h).1 <;> simp [hb, countChanged, List.filter, TrieOp.changed]
  · show TrieOp.commit ∉ s.2.2 ++ [.add h (trieAdd s.1 h).1]
    simp [h2]

theorem applyAcctDelta_call (hashA : Nat → AccountData → Nat) (s : TrieLoopState)
    (d : AcctDelta) :
    ((applyAcctDelta hashA s d).2.2).filterMap TrieOp.call =
      (s.2.2).filterMap TrieOp.call ++ specAcctCalls hashA d := by
  unfold applyAcctDelta specAcctCalls
  dsimp only
  by_cases h1 : d.oldAcct.isEmpty <;> by_cases h2 : d.newAcct.isEmpty <;>
    simp [h1, h2, stepDel_call, stepAdd_call]

theorem applyAcctDelta_inv (hashA : Nat → AccountData → Nat) (s : TrieLoopState)
    (d : AcctDelta) (hs : TrieInv s) : TrieInv (applyAcctDelta hashA s d) := by
  unfold applyAcctDelta
  dsimp only
  by_cases h1 : d.oldAcct.isEmpty <;> by_cases h2 : d.newAcct.isEmpty <;>
    simp [h1, h2] <;>
    first
    | exact hs
    | exact stepDel_inv _ _ hs
    | exact stepAdd_inv _ _ hs
    | exact stepAdd_inv _ _ (stepDel_inv _ _ hs)

theorem applyResDelta_call (hashR : ResourceData → Nat → Nat → Nat → Nat)
    (s : TrieLoopState) (d : ResDelta) :
    ((applyResDelta hashR s d).2.2).filterMap TrieOp.call =
      (s.2.2).filterMap TrieOp.call ++ specResCalls hashR d := by
  unfold applyResDelta specResCalls
  dsimp only
  by_cases h1 : d.oldResource.isEmpty <;> by_cases h2 : d.newResource.isEmpty <;>
    simp [h1, h2, stepDel_call, stepAdd_call]

theorem applyResDelta_inv (hashR : ResourceData → Nat → Nat → Nat → Nat)
    (s : TrieLoopState) (d : ResDelta) (hs : TrieInv s) :
    TrieInv (applyResDelta hashR s d) := by
  unfold applyResDelta
  dsimp only
  by_cases h1 : d.oldResource.isEmpty <;> by_cases h2 : d.newResource.isEmpty <;>
    simp [h1, h2] <;>
    first
    | exact hs
    | exact stepDel_inv _ _ hs
    | exact stepAdd_inv _ _ hs
    | exact stepAdd_inv _ _ (stepDel_inv _ _ hs)

theorem applyKvDelta_call (hashKV : String → List Nat → Nat) (s : TrieLoopState)
    (kv : String × KvDelta) :
    ((applyKvDelta hashKV s kv).2.2).filterMap TrieOp.call =
      (s.2.2).filterMap TrieOp.call ++ specKvCalls hashKV kv := by
  unfold applyKvDelta specKvCalls
  rcases ho : kv.2.oldData with _ | o <;> rcases hd : kv.2.data with _ | d <;>
    simp [ho, hd, stepDel_call, stepAdd_call]
  by_cases he : o = d <;> simp [he, stepDel_call, stepAdd_call]

theorem applyKvDelta_inv (hashKV : String → List Nat → Nat) (s : TrieLoopState)
    (kv : String × KvDelta) (hs : TrieInv s) : TrieInv (applyKvDelta hashKV s kv) := by
  unfold applyKvDelta
  rcases ho : kv.2.oldData with _ | o <;> rcases hd : kv.2.data with _ | d
  · exact hs
  · exact stepAdd_inv _ _ hs
  · exact stepDel_inv _ _ hs
  · by_cases he : o = d
    · simpa [he] using hs
    · simpa [he] using stepAdd_inv _ _ (stepDel_inv _ _ hs)

theorem foldl_apply_call {δ : Type} (F : TrieLoopState → δ → TrieLoopState)
    (G : δ → List TrieCall)
    (hcall : ∀ s d, ((F s d).2.2).filterMap TrieOp.call =
      (s.2.2).filterMap TrieOp.call ++ G d)
    (hinv : ∀ s d, TrieInv s → TrieInv (F s d)) :
    ∀ (L : List δ) (s : TrieLoopState), TrieInv s →
      ((L.foldl F s).2.2).filterMap TrieOp.call =
        (s.2.2).filterMap TrieOp.call ++ L.flatMap G ∧
      TrieInv (L.foldl F s) := by
  intro L
  induction L with
  | nil => intro s hs; exact ⟨by simp, hs⟩
  | cons d rest ih =>
    intro s hs
    rw [List.foldl_cons]
    obtain ⟨h1, h2⟩ := ih (F s d) (hinv s d hs)
    refine ⟨?_, h2⟩
    rw [h1, hcall s d]
    simp

/-- C6: with catchpoints enabled, the trie calls made by
`accountsUpdateBalances` are — in order — exactly: per account delta a
delete of the old hash iff the old value is non-empty and an add of the new
hash iff the new value is non-empty; likewise per resource delta; and per
KV delta nothing when both payloads are absent or byte-equal, else the
delete of the present old payload's hash and the add of the present new
payload's hash. A false return from `Add`/`Delete` is logged but neither
stops the loops nor fails the function (the full trace is produced
unconditionally), and `Commit` is invoked iff at least one call actually
changed the trie. -/
theorem accountsUpdateBalances_spec (hashA : Nat → AccountData → Nat)
    (hashR : ResourceData → Nat → Nat → Nat → Nat)
    (hashKV : String → List Nat → Nat)
    (ads : List AcctDelta) (rds : List ResDelta) (kvs : List (String × KvDelta))
    (ct : CatchpointTracker) (hen : ct.catchpointEnabled = true) :
    ((accountsUpdateBalances hashA hashR hashKV ads rds kvs ct).2.filterMap
        TrieOp.call =
      ads.flatMap (specAcctCalls hashA) ++ rds.flatMap (specResCalls hashR) ++
        kvs.flatMap (specKvCalls hashKV)) ∧
    (TrieOp.commit ∈ (accountsUpdateBalances hashA hashR hashKV ads rds kvs ct).2 ↔
      ∃ op ∈ (accountsUpdateBalances hashA hashR hashKV ads rds kvs ct).2,
        op.changed = true) := by
  unfold accountsUpdateBalances
  rw [if_neg (by simp [hen])]
  dsimp only
  have H1 := foldl_apply_call (applyAcctDelta hashA) (specAcctCalls hashA)
    (applyAcctDelta_call hashA) (applyAcctDelta_inv hashA) ads
    (ct.balancesTrie, 0, []) ⟨rfl, by simp⟩
  have H2 := foldl_apply_call (applyResDelta hashR) (specResCalls hashR)
    (applyResDelta_call hashR) (applyResDelta_inv hashR) rds _ H1.2
  have H3 := foldl_apply_call (applyKvDelta hashKV) (specKvCalls hashKV)
    (applyKvDelta_call hashKV) (applyKvDelta_inv hashKV) kvs _ H2.2
  obtain ⟨hc3, hinv3⟩ := H3
  rw [H2.1, H1.1] at hc3
  simp only [List.filterMap_nil, List.nil_append] at hc3
  by_cases hpos : (kvs.foldl (applyKvDelta hashKV) (rds.foldl (applyResDelta hashR)
      (ads.foldl (applyAcctDelta hashA) (ct.balancesTrie, 0, [])))).2.1 > 0
  · rw [if_pos hpos]
    constructor
    · rw [List.filterMap_append, hc3]
      simp [TrieOp.call]
    · constructor
      · intro _
        have hcount : 0 < countChanged (kvs.foldl (applyKvDelta hashKV)
            (rds.foldl (applyResDelta hashR)
              (ads.foldl (applyAcctDelta hashA) (ct.balancesTrie, 0, [])))).2.2 :=
          hinv3.1 ▸ hpos
        rw [countChanged] at hcount
        obtain ⟨op, hop⟩ := List.exists_mem_of_length_pos hcount
        have hmem := List.mem_filter.mp hop
        exact ⟨op, List.mem_append_left _ hmem.1, hmem.2⟩
      · intro _
        simp
  · rw [if_neg hpos]
    refine ⟨hc3, ?_, ?_⟩
    · intro hmem
      exact absurd hmem hinv3.2
    · rintro ⟨op, hop, hch⟩
      have hmem : op ∈ (kvs.foldl (applyKvDelta hashKV) (rds.foldl (applyResDelta hashR)
          (ads.foldl (applyAcctDelta hashA) (ct.balancesTrie, 0, [])))).2.2.filter
            TrieOp.changed :=
        List.mem_filter.mpr ⟨hop, hch⟩
      have hlen := List.length_pos_of_mem hmem
      rw [← countChanged, ← hinv3.1] at hlen
      omega

/-- C6 witness: the theorem applied at concrete deltas — one account delta
with non-empty old and new values, no resource deltas, one byte-equal KV
delta (skipped) and one fresh KV insert — with the trace and the commit
call evaluated. -/
theorem accountsUpdateBalances_spec_witness :
    (accountsUpdateBalances (fun a d => 100 * a + d.payload)
        (fun d a i u => 1000 * a + 100 * i + 10 * u + d.payload)
        (fun _ v => v.length)
        [⟨1, ⟨false, 5⟩, ⟨false, 6⟩⟩] []
        [("a", ⟨some [1], some [1]⟩), ("b", ⟨none, some [2, 3]⟩)] egTracker).2.filterMap
      TrieOp.call = [.del 105, .add 106, .add 2] ∧
    TrieOp.commit ∈ (accountsUpdateBalances (fun a d => 100 * a + d.payload)
        (fun d a i u => 1000 * a + 100 * i + 10 * u + d.payload)
        (fun _ v => v.length)
        [⟨1, ⟨false, 5⟩, ⟨false, 6⟩⟩] []
        [("a", ⟨some [1], some [1]⟩), ("b", ⟨none, some [2, 3]⟩)] egTracker).2 := by
  constructor
  · exact ((accountsUpdateBalances_spec _ _ _ _ _ _ egTracker (by decide)).1).trans (by decide)
  · exact ((accountsUpdateBalances_spec _ _ _ _ _ _ egTracker (by decide)).2).mpr
      ⟨.add 106 true, by decide, by decide⟩

/-! ## C8: `GetCatchpointStream` -/

/-- Lookup of a file by path on the modelled cold disk. -/
def lookupPath : List (String × Nat) → String → Option Nat
  | [], _ => none
  | (p0, s) :: rest, p => if p0 = p then some s else lookupPath rest p

/-- Embedding of `catchpointTracker.GetCatchpointStream` from the source.
The registry lookup (`GetCatchpoint`) models `sql.ErrNoRows` as the absent
row (other database errors are not modelled); opening a file succeeds iff
its path is on the modelled cold disk, a failed open being the
does-not-exist case (other open errors are not modelled). When the registry
reports a file that is missing on disk, the row is cleaned up via
`recordCatchpointFile(round, "", 0)` — which in the model cannot fail, so
the error-propagation branch of the Go code is unreachable — and the
`ErrNoEntry` sentinel is returned. When the registry has no row but the
file exists at the derived path, the file is re-recorded (a failure there
is only logged) and returned. A returned stream is modelled by the opened
path and the reported size. -/
def GetCatchpointStream (round : Nat) (ct : CatchpointTracker) :
    CatchpointTracker × Except GoErr (String × Nat) :=
  let dbFileName := match lookupRound ct.store.registry round with
    | some (p, _) => p
    | none => ""
  let fileSize := match lookupRound ct.store.registry round with
    | some (_, s) => s
    | none => 0
  if dbFileName ≠ "" then
    match lookupPath ct.coldFiles dbFileName with
    | some _ => (ct, .ok (dbFileName, fileSize))
    | none => ((recordCatchpointFile round "" 0 ct).1, .error .noEntry)
  else
    match lookupPath ct.coldFiles (filepathJoin CatchpointDirName (MakeCatchpointFilePath round)) with
    | some sz =>
      ((recordCatchpointFile round
          (filepathJoin CatchpointDirName (MakeCatchpointFilePath round)) sz ct).1,
        .ok (filepathJoin CatchpointDirName (MakeCatchpointFilePath round), sz))
    | none => (ct, .error .noEntry)

theorem getOldest_subset (reg : List (Nat × String × Nat)) (want : Nat) (keep : Int) :
    ∀ e ∈ getOldestCatchpointFiles reg want keep, e ∈ reg := by
  intro e he
  unfold getOldestCatchpointFiles at he
  split at he
  · simp at he
  · exact List.take_subset _ _ he

/-- `recordCatchpointFile` with an empty path removes the registry row for
the round (and the cleanup loop can only remove further rows). -/
theorem recordCatchpointFile_registry_remove (round : Nat) (ct : CatchpointTracker)
    (hhist : ct.catchpointFileHistoryLength = -1 ∨ 1 ≤ ct.catchpointFileHistoryLength) :
    lookupRound (recordCatchpointFile round "" 0 ct).1.store.registry round = none := by
  have hne : ct.catchpointFileHistoryLength ≠ 0 := by omega
  unfold recordCatchpointFile
  dsimp only
  rw [if_pos hne]
  dsimp only
  rcases hhist with h1 | h1
  · rw [if_pos h1]
    show lookupRound (storeCatchpoint ct.store.registry round "" 0) round = none
    rw [storeCatchpoint, if_pos rfl]
    exact lookupRound_removeRound_self _ _
  · rw [if_neg (by omega)]
    show lookupRound ((getOldestCatchpointFiles
        (storeCatchpoint ct.store.registry round "" 0) 2
        ct.catchpointFileHistoryLength).foldl cleanupOldFile _).store.registry round = none
    rw [show storeCatchpoint ct.store.registry round "" 0 =
      removeRound ct.store.registry round from by rw [storeCatchpoint, if_pos rfl]]
    rw [foldl_cleanupOldFile_registry _ round _
      (fun e he => fst_ne_of_mem_removeRound (getOldest_subset _ _ _ e he))]
    exact lookupRound_removeRound_self _ _

/-- C8: when the registry reports a file for the round (a row with a
non-empty name) but the file is absent from the cold directory (the open
fails with a does-not-exist error), `GetCatchpointStream` removes the
registry row within the same call and returns the `ErrNoEntry` sentinel;
stated for configurations that store catchpoint files
(`catchpointFileHistoryLength` equal to `-1` or at least 1). -/
theorem GetCatchpointStream_missing_file (round : Nat) (ct : CatchpointTracker)
    (p : String) (sz : Nat)
    (hreg : lookupRound ct.store.registry round = some (p, sz))
    (hp : p ≠ "")
    (hmiss : lookupPath ct.coldFiles p = none)
    (hhist : ct.catchpointFileHistoryLength = -1 ∨ 1 ≤ ct.catchpointFileHistoryLength) :
    (GetCatchpointStream round ct).2 = .error .noEntry ∧
    lookupRound (GetCatchpointStream round ct).1.store.registry round = none := by
  unfold GetCatchpointStream
  rw [hreg]
  dsimp only
  rw [if_pos hp, hmiss]
  exact ⟨rfl, recordCatchpointFile_registry_remove round ct hhist⟩

def egTrackerC8 : CatchpointTracker :=
  { egTracker with store := { egTracker.store with registry := [(4, "gone.catchpoint", 9)] } }

/-- C8 witness: the theorem applied at a concrete state whose registry has
a row for round 4 pointing at a file absent from the cold directory. -/
theorem GetCatchpointStream_missing_file_witness :
    (GetCatchpointStream 4 egTrackerC8).2 = .error .noEntry ∧
    lookupRound (GetCatchpointStream 4 egTrackerC8).1.store.registry 4 = none :=
  GetCatchpointStream_missing_file 4 egTrackerC8 "gone.catchpoint" 9 (by decide) (by decide)
    (by decide) (by decide)

/-! ## C9: `produceCommittingTask` with `catchpointInterval = 0` -/

/-- The fields of `deferredCommitRange` used by the catchpoint tracker. -/
structure DeferredCommitRange where
  offset : Nat
  oldBase : Nat
  catchpointLookback : Nat
  catchpointFirstStage : Bool
  catchpointSecondStage : Bool
  enableGeneratingCatchpointFiles : Bool
deriving DecidableEq, Repr

/-- Embedding of the method `catchpointTracker.calculateCatchpointRounds`
from the source: empty when the tracker's interval is zero, otherwise the
free function on the window from `max(oldBase+1, catchpointLookback+1)` to
`oldBase + offset`. -/
def CatchpointTracker.calculateCatchpointRounds (ct : CatchpointTracker)
    (dcr : DeferredCommitRange) : List Nat :=
  if ct.catchpointInterval = 0 then []
  else
    Catchpoint.calculateCatchpointRounds
      (if dcr.catchpointLookback + 1 > dcr.oldBase + 1 then dcr.catchpointLookback + 1
       else dcr.oldBase + 1)
      (dcr.oldBase + dcr.offset) ct.catchpointInterval

/-- Embedding of `catchpointTracker.produceCommittingTask` from the source.
Returns the (possibly updated) commit range — `none` models the Go `nil`
return while a previous stage-1 data file is still being written — together
with the updated tracker. The single-slot `catchpointDataSlowWriting`
channel is modelled by its closed flag (the Go `select`-with-`default`
closes it only when it is still open, with the same net effect);
`isWritingCatchpointDataFile` is the non-zero test on the writing
sentinel. -/
def produceCommittingTask (ct : CatchpointTracker) (committedRound dbRound : Nat)
    (dcr : DeferredCommitRange) : Option DeferredCommitRange × CatchpointTracker :=
  if ct.catchpointInterval = 0 then (some dcr, ct)
  else
    let res := calculateFirstStageRounds dcr.oldBase dcr.offset ct.reenableCatchpointsRound
      ct.catchpointInterval dcr.catchpointLookback
    let dcr := { dcr with offset := res.2.2 }
    if ct.catchpointDataWriting ≠ 0 then
      (none, if res.1 ∧ ¬ct.slowWritingClosed then { ct with slowWritingClosed := true } else ct)
    else
      let dcr := if res.1 then { dcr with catchpointFirstStage := true } else dcr
      let ct := if res.1 ∧ ct.enableGeneratingCatchpointFiles then
          { ct with slowWritingClosed := res.2.1 } else ct
      let dcr := { dcr with enableGeneratingCatchpointFiles := ct.enableGeneratingCatchpointFiles }
      (some { dcr with
          catchpointSecondStage := decide (0 < (ct.calculateCatchpointRounds dcr).length) },
        ct)

/-- C9: when the tracker's catchpoint interval is zero, no stage-1 or
stage-2 catchpoint work is scheduled — `produceCommittingTask` returns the
commit range unchanged with the tracker untouched (in particular neither
stage flag is newly set), and the tracker's `calculateCatchpointRounds`
returns the empty list for every commit range. -/
theorem produceCommittingTask_interval_zero (ct : CatchpointTracker)
    (committedRound dbRound : Nat) (dcr : DeferredCommitRange)
    (h : ct.catchpointInterval = 0) :
    produceCommittingTask ct committedRound dbRound dcr = (some dcr, ct) ∧
    ∀ dcr2 : DeferredCommitRange, ct.calculateCatchpointRounds dcr2 = [] := by
  constructor
  · unfold produceCommittingTask
    rw [if_pos h]
  · intro dcr2
    unfold CatchpointTracker.calculateCatchpointRounds
    rw [if_pos h]

def egTrackerZero : CatchpointTracker := { egTracker with catchpointInterval := 0 }

def egDcr : DeferredCommitRange := ⟨500, 0, 320, false, false, false⟩

/-- C9 witness: the theorem applied at a concrete tracker with a zero
interval and a concrete commit range. -/
theorem produceCommittingTask_interval_zero_witness :
    produceCommittingTask egTrackerZero 1 2 egDcr = (some egDcr, egTrackerZero) ∧
    egTrackerZero.calculateCatchpointRounds egDcr = [] := by
  have h := produceCommittingTask_interval_zero egTrackerZero 1 2 egDcr (by decide)
  exact ⟨h.1, h.2 egDcr⟩

/-! ## C10: `committedUpTo` -/

/-- Embedding of `catchpointTracker.committedUpTo` from the source: under
the read lock it returns the cached database round as the retain round and
a zero lookback; it writes no tracker state, which the model reflects by
taking the tracker read-only and returning only the pair. -/
def committedUpTo (ct : CatchpointTracker) (rnd : Nat) : Nat × Nat :=
  (ct.cachedDBRound, 0)

/-- C10: `committedUpTo` returns the tracker's cached DB round as the
retain round and always returns 0 as the lookback, independently of the
round argument; it modifies no tracker state (the embedding is a read-only
function of the tracker). -/
theorem committedUpTo_spec (ct : CatchpointTracker) (rnd rnd2 : Nat) :
    committedUpTo ct rnd = (ct.cachedDBRound, 0) ∧
    committedUpTo ct rnd = committedUpTo ct rnd2 :=
  ⟨rfl, rfl⟩

end Catchpoint
